import Mathlib

/-!
# mkcertproxy: certificate resolution and reverse-proxy bootstrap

A shallow embedding of `mkcertproxy.go`.

Go strings are byte sequences.  They are modelled by Lean strings, read one
character per byte; every delimiter the program looks for is ASCII.  The
filesystem is explicit state, and each function returns, next to its Go
results, the list of outside calls it made, in order.

The calls into the Go standard library (`net.SplitHostPort`, `strconv.Atoi`,
`filepath.Join`, `os.Stat`, `regexp`, `net/url`) are modelled after the
library's own sources, on a 64-bit Unix target.
-/

namespace Mkcertproxy

/-! ## Errors -/

/-- The two ways `strconv` rejects a numeral. -/
inductive NumErrKind
  | malformed
  | outOfRange
  deriving DecidableEq, Repr

/-- What a failed subprocess run reports: `*exec.ExitError` carries the exit
status, any other value stands for a failure to start the program. -/
inductive ExecError
  | exitError (status : Nat)
  | startError (msg : String)
  deriving DecidableEq, Repr

/-- The error values the package returns or passes through. -/
inductive GoError
  | configNil
  | addrError (addr why : String)
  | numError (fn num : String) (kind : NumErrKind)
  | certIsDir (path : String)
  | keyIsDir (path : String)
  | execFailed (e : ExecError)
  | pathError (op path : String)
  | tlsError (msg : String)
  | urlError (msg : String)
  | other (msg : String)
  deriving DecidableEq, Repr

/-! ## Byte-string helpers -/

/-- Index of the first `c` in `s` (`strings.IndexByte`, with `none` for -1). -/
def indexByte : List Char → Char → Option Nat
  | [], _ => none
  | x :: xs, c =>
    if x = c then some 0
    else match indexByte xs c with
      | some i => some (i + 1)
      | none => none

/-- Index of the last `c` in `s` (`strings.LastIndexByte`, with `none` for -1). -/
def lastIndexByte : List Char → Char → Option Nat
  | [], _ => none
  | x :: xs, c =>
    match lastIndexByte xs c with
    | some i => some (i + 1)
    | none => if x = c then some 0 else none

/-- Whether `p` is an initial segment of `s` (`strings.HasPrefix`). -/
def startsWith : List Char → List Char → Bool
  | _, [] => true
  | [], _ :: _ => false
  | x :: xs, y :: ys => x == y && startsWith xs ys

/-- Index of the first occurrence of the substring `p` (`strings.Index`). -/
def indexSub : List Char → List Char → Option Nat
  | [], p => if p = [] then some 0 else none
  | x :: xs, p =>
    if startsWith (x :: xs) p then some 0
    else match indexSub xs p with
      | some i => some (i + 1)
      | none => none

/-- ASCII decimal digit. -/
def isDigit (c : Char) : Bool := decide (48 ≤ c.toNat ∧ c.toNat ≤ 57)

/-- ASCII lowercase letter, the class `[a-z]`. -/
def isLower (c : Char) : Bool := decide (97 ≤ c.toNat ∧ c.toNat ≤ 122)

/-- ASCII uppercase letter. -/
def isUpper (c : Char) : Bool := decide (65 ≤ c.toNat ∧ c.toNat ≤ 90)

/-! ## net.SplitHostPort -/

/-- Error text of `net.SplitHostPort`. -/
def missingPort : String := "missing port in address"

/-- Error text of `net.SplitHostPort`. -/
def tooManyColons : String := "too many colons in address"

/-- The two closing checks of `net.SplitHostPort`: no `[` from index `j` on,
no `]` from index `k` on; then the port is what follows the last colon. -/
def splitTail (hostport : String) (hp host : List Char) (i j k : Nat) :
    Except GoError (String × String) :=
  if (indexByte (hp.drop j) '[').isSome then
    .error (.addrError hostport "unexpected '[' in address")
  else if (indexByte (hp.drop k) ']').isSome then
    .error (.addrError hostport "unexpected ']' in address")
  else
    .ok (String.mk host, String.mk (hp.drop (i + 1)))

/-- Model of `net.SplitHostPort`: splits `host:port`, `[host]:port` or
`[host%zone]:port` into host and port. -/
def SplitHostPort (hostport : String) : Except GoError (String × String) :=
  let hp := hostport.data
  match lastIndexByte hp ':' with
  | none => .error (.addrError hostport missingPort)
  | some i =>
    if hp.head? = some '[' then
      match indexByte hp ']' with
      | none => .error (.addrError hostport "missing ']' in address")
      | some e =>
        if e + 1 = hp.length then
          .error (.addrError hostport missingPort)
        else if e + 1 = i then
          splitTail hostport hp ((hp.take e).drop 1) i 1 (e + 1)
        else if hp.get? (e + 1) = some ':' then
          .error (.addrError hostport tooManyColons)
        else
          .error (.addrError hostport missingPort)
    else
      let host := hp.take i
      if (indexByte host ':').isSome then
        .error (.addrError hostport tooManyColons)
      else
        splitTail hostport hp host i 0 0

/-! ## strconv.Atoi -/

/-- The digit loop of `strconv.ParseUint` in base 10 for 64 bits: a byte that
is no digit is a syntax error, a value past `2^64 - 1` a range error. -/
def parseUintLoop : List Char → Nat → Except NumErrKind Nat
  | [], n => .ok n
  | c :: cs, n =>
    if isDigit c then
      let n1 := n * 10 + (c.toNat - 48)
      if n1 > 2 ^ 64 - 1 then .error .outOfRange else parseUintLoop cs n1
    else .error .malformed

/-- Model of `strconv.ParseUint(s, 10, 64)`. -/
def parseUint (s : List Char) : Except NumErrKind Nat :=
  if s = [] then .error .malformed else parseUintLoop s 0

/-- Model of `strconv.ParseInt(s, 10, 0)` with a 64-bit `int`. -/
def parseInt (s : List Char) : Except NumErrKind Int :=
  match s with
  | [] => .error .malformed
  | c :: cs =>
    let neg := decide (c = '-')
    let body := if c = '+' ∨ c = '-' then cs else c :: cs
    match parseUint body with
    | .error k => .error k
    | .ok un =>
      if !neg && decide (un ≥ 2 ^ 63) then .error .outOfRange
      else if neg && decide (un > 2 ^ 63) then .error .outOfRange
      else .ok (if neg then -(un : Int) else (un : Int))

/-- Model of `strconv.Atoi`; its fast path for short inputs computes the same
value as `ParseInt`, so one definition covers both. -/
def Atoi (s : String) : Except GoError Int :=
  match parseInt s.data with
  | .ok n => .ok n
  | .error k => .error (.numError "Atoi" s k)

/-- A numeral in the sense of `strconv`: an optional sign, then one or more
decimal digits. -/
def isNumeral (s : List Char) : Bool :=
  match s with
  | [] => false
  | c :: cs =>
    let body := if c = '+' ∨ c = '-' then cs else c :: cs
    !body.isEmpty && body.all isDigit

/-! ## filepath.Join -/

/-- The elements of a path between its separators (`/`). -/
def splitSlash : List Char → List (List Char)
  | [] => [[]]
  | c :: cs =>
    if c = '/' then [] :: splitSlash cs
    else match splitSlash cs with
      | [] => [[c]]
      | e :: es => (c :: e) :: es

/-- The loop of `filepath.Clean`, one path element at a time.  `out` holds the
elements written so far, last first; the first `dotdot` of them are a leading
run of `..` that cannot be backed over. -/
def cleanLoop (rooted : Bool) : List (List Char) → List (List Char) → Nat → List (List Char)
  | [], out, _ => out
  | e :: es, out, dotdot =>
    if e = [] ∨ e = ['.'] then cleanLoop rooted es out dotdot
    else if e = ['.', '.'] then
      if out.length > dotdot then cleanLoop rooted es out.tail dotdot
      else if !rooted then cleanLoop rooted es (e :: out) (out.length + 1)
      else cleanLoop rooted es out dotdot
    else cleanLoop rooted es (e :: out) dotdot

/-- Model of `filepath.Clean` on Unix. -/
def Clean (path : List Char) : List Char :=
  if path = [] then ['.']
  else
    let rooted := path.head? = some '/'
    let out := (cleanLoop rooted (splitSlash path) [] 0).reverse
    let body := (if rooted then ['/'] else []) ++ List.intercalate ['/'] out
    if body = [] then ['.'] else body

/-- Model of `filepath.Join` for two elements: the elements from the first
non-empty one on are joined by `/` and cleaned; all empty gives `""`. -/
def Join (a b : String) : String :=
  if a ≠ "" then String.mk (Clean (a.data ++ '/' :: b.data))
  else if b ≠ "" then String.mk (Clean b.data)
  else ""

/-! ## Filesystem -/

deriving instance DecidableEq for Except

/-- What kind of object a path names: `os.FileMode` tells a directory and a
regular file from everything else (device, socket, named pipe). -/
inductive FileKind
  | regular
  | directory
  | other
  deriving DecidableEq, Repr

/-- An object in the filesystem. -/
structure File where
  kind : FileKind
  content : String
  deriving DecidableEq, Repr

/-- The filesystem: what each path names, if anything. -/
abbrev FS := String → Option File

/-- The part of `os.FileInfo` the program looks at. -/
structure FileInfo where
  mode : FileKind
  deriving DecidableEq, Repr

/-- Model of `FileInfo.IsDir`. -/
def FileInfo.IsDir (info : FileInfo) : Bool := decide (info.mode = .directory)

/-- Model of `os.Stat`: an error when the path names nothing (the empty path
never names anything), the file information otherwise. -/
def Stat (fs : FS) (name : String) : Except GoError FileInfo :=
  if name = "" then .error (.pathError "stat" name)
  else match fs name with
    | none => .error (.pathError "stat" name)
    | some f => .ok { mode := f.kind }

/-- Model of `os.ReadFile`: the content of a file that exists and is not a
directory. -/
def ReadFile (fs : FS) (name : String) : Except GoError String :=
  if name = "" then .error (.pathError "open" name)
  else match fs name with
    | none => .error (.pathError "open" name)
    | some f =>
      if f.kind = .directory then .error (.pathError "read" name) else .ok f.content

/-! ## Config -/

/-- The data fields of `Config`. -/
structure Settings where
  Domain : String
  CertificateFile : String
  KeyFile : String
  ListenPort : Int
  ProxyAddr : String
  deriving DecidableEq, Repr

/-- What a call of a certificate provisioner leaves behind: the filesystem,
the error it returns and the lines it logged.  A provisioner reads the Config
it is handed, as `MkCert` does; one that writes the Config through the pointer
is not covered. -/
structure CallResult where
  fs : FS
  err : Option GoError
  logs : List String

/-- The struct `Config`: its data fields and the optional `MakeCerts` callback. -/
structure Config extends Settings where
  MakeCerts : Option (Settings → FS → CallResult)

/-- A loaded `tls.Certificate`, identified by the two PEM blocks it came from. -/
structure Certificate where
  certPEM : String
  keyPEM : String
  deriving DecidableEq, Repr

/-- What `Cmd.CombinedOutput` returns, and the filesystem the subprocess left.
The captured output and the error are two separate results: the
`*exec.ExitError` holds the exit status, and its `Stderr` field is filled by
`Cmd.Output` only. -/
structure RunResult where
  out : String
  err : Option ExecError
  fs : FS

/-- The operating system and library services the package calls: running a
subprocess given its argument vector, and `tls.X509KeyPair`. -/
structure Env where
  run : List String → FS → RunResult
  x509KeyPair : String → String → Except GoError Certificate

/-- The outside calls a function makes, in order. -/
inductive Event
  | stat (path : String)
  | makeCerts (cfg : Settings)
  | log (line : String)
  | loadKeyPair (certFile keyFile : String)
  | urlParse (rawURL : String)
  deriving DecidableEq, Repr

/-- The package variable `MkcertExe`. -/
def MkcertExe : String := "mkcert"

/-- The argument vector `MkCert` builds with `exec.Command`. -/
def mkcertArgs (cfg : Settings) : List String :=
  [MkcertExe, "-cert-file", cfg.CertificateFile, "-key-file", cfg.KeyFile, cfg.Domain]

/-- Model of `MkCert`: run the tool with the certificate path, key path and
domain; on failure return the subprocess error, on success log the output. -/
def MkCert (env : Env) (cfg : Settings) (fs : FS) : CallResult :=
  let args := mkcertArgs cfg
  let line := "$ " ++ " ".intercalate args
  let r := env.run args fs
  match r.err with
  | some e => { fs := r.fs, err := some (.execFailed e), logs := [line] }
  | none => { fs := r.fs, err := none, logs := [line, r.out] }

/-- Model of `Config.makeCerts`: the callback `MakeCerts`, or `MkCert` when it
is unset, applied to the Config. -/
def Config.makeCerts (env : Env) (cfg : Config) (fs : FS) : CallResult :=
  let cb := match cfg.MakeCerts with
    | none => MkCert env
    | some f => f
  cb cfg.toSettings fs

/-- Result of `SetHostAndListenAddr`: the Config behind the receiver after the
call (`none` for a nil receiver), the filesystem, the returned error and the
outside calls made. -/
structure Outcome where
  cfg : Option Config
  fs : FS
  err : Option GoError
  trace : List Event

/-- Go's `info != nil && info.IsDir()` on the result of `os.Stat`. -/
def statIsDir (st : Except GoError FileInfo) : Bool :=
  match st with
  | .ok info => info.IsDir
  | .error _ => false

/-- Go's `err != nil` on the result of `os.Stat`. -/
def statFailed (st : Except GoError FileInfo) : Bool :=
  match st with
  | .ok _ => false
  | .error _ => true

/-- Lines 115-119 of `SetHostAndListenAddr`: call the provisioner when a stat
failed, return nil otherwise. -/
def provisionStep (env : Env) (fs : FS) (cfg : Config) (useMkcert : Bool)
    (trace : List Event) : Outcome :=
  if useMkcert then
    let r := cfg.makeCerts env fs
    { cfg := some cfg, fs := r.fs, err := r.err,
      trace := trace ++ Event.makeCerts cfg.toSettings :: r.logs.map Event.log }
  else
    { cfg := some cfg, fs := fs, err := none, trace := trace }

/-- Lines 104-113 of `SetHostAndListenAddr`: compute and stat the key path
when `KeyFile` is unset. -/
def keyStep (env : Env) (fs : FS) (cfg : Config) (certdir host : String)
    (useMkcert : Bool) (trace : List Event) : Outcome :=
  if cfg.KeyFile.length = 0 then
    let cfg := { cfg with KeyFile := Join certdir (host ++ "-key.pem") }
    let st := Stat fs cfg.KeyFile
    let useMkcert := if statFailed st then true else useMkcert
    let trace := trace ++ [Event.stat cfg.KeyFile]
    if statIsDir st then
      { cfg := some cfg, fs := fs, err := some (.keyIsDir cfg.KeyFile), trace := trace }
    else provisionStep env fs cfg useMkcert trace
  else provisionStep env fs cfg useMkcert trace

/-- Lines 92-102 of `SetHostAndListenAddr`: compute and stat the certificate
path when `CertificateFile` is unset. -/
def certStep (env : Env) (fs : FS) (cfg : Config) (certdir host : String) : Outcome :=
  let useMkcert := false
  if cfg.CertificateFile.length = 0 then
    let cfg := { cfg with CertificateFile := Join certdir (host ++ ".pem") }
    let st := Stat fs cfg.CertificateFile
    let useMkcert := if statFailed st then true else useMkcert
    let trace := [Event.stat cfg.CertificateFile]
    if statIsDir st then
      { cfg := some cfg, fs := fs, err := some (.certIsDir cfg.CertificateFile), trace := trace }
    else keyStep env fs cfg certdir host useMkcert trace
  else keyStep env fs cfg certdir host useMkcert []

/-- Model of `Config.SetHostAndListenAddr`. -/
def SetHostAndListenAddr (env : Env) (fs : FS) (cfg : Option Config)
    (certdir listen : String) : Outcome :=
  match cfg with
  | none => { cfg := none, fs := fs, err := some .configNil, trace := [] }
  | some cfg =>
    match SplitHostPort listen with
    | .error e => { cfg := some cfg, fs := fs, err := some e, trace := [] }
    | .ok (host, port) =>
      match Atoi port with
      | .error e => { cfg := some cfg, fs := fs, err := some e, trace := [] }
      | .ok num =>
        let cfg := { cfg with ListenPort := num }
        if host.length = 0 then
          { cfg := some cfg, fs := fs, err := none, trace := [] }
        else
          let cfg := { cfg with Domain := host }
          certStep env fs cfg certdir host

/-- How many times the provisioner was invoked. -/
def provisionerCalls (trace : List Event) : Nat :=
  trace.countP (fun e => match e with
    | .makeCerts _ => true
    | _ => false)

/-- The paths handed to `os.Stat`, in order. -/
def statPaths (trace : List Event) : List String :=
  trace.filterMap (fun e => match e with
    | .stat p => some p
    | _ => none)

/-- The path the program computes for the certificate: `<certdir>/<host>.pem`. -/
def certPath (certdir host : String) : String := Join certdir (host ++ ".pem")

/-- The path the program computes for the key: `<certdir>/<host>-key.pem`. -/
def keyPath (certdir host : String) : String := Join certdir (host ++ "-key.pem")

/-- The path names an existing directory. -/
def IsDirectory (fs : FS) (path : String) : Prop :=
  ∃ info, Stat fs path = .ok info ∧ info.IsDir = true

/-- The path names an existing regular file. -/
def IsRegularFile (fs : FS) (path : String) : Prop :=
  Stat fs path = .ok { mode := .regular }

/-- The path cannot be stat-ed. -/
def StatFails (fs : FS) (path : String) : Prop :=
  ∃ e, Stat fs path = .error e


/-! ## regexp -/

/-- Model of `reScheme.MatchString` for the pattern `\A[a-z]+\:\/\/`: at the
start of the text, one or more bytes of `[a-z]`, then `://`.  A colon is not
in `[a-z]`, so the letters of a match are the whole leading run of them. -/
def reSchemeMatch (s : String) : Bool :=
  let letters := s.data.takeWhile isLower
  let rest := s.data.dropWhile isLower
  !letters.isEmpty && startsWith rest [':', '/', '/']

/-! ## net/url -/

/-- Model of `url.Userinfo`. -/
structure Userinfo where
  username : String
  password : Option String
  deriving DecidableEq, Repr

/-- Model of `url.URL`, without the encoding hints `RawPath` and `RawFragment`,
which no step of parsing reads. -/
structure URL where
  Scheme : String
  Opaque : String
  User : Option Userinfo
  Host : String
  Path : String
  ForceQuery : Bool
  RawQuery : String
  Fragment : String
  OmitHost : Bool
  deriving DecidableEq, Repr

/-- The escaping modes of `net/url`. -/
inductive Encoding
  | encodePath
  | encodePathSegment
  | encodeHost
  | encodeZone
  | encodeUserPassword
  | encodeQueryComponent
  | encodeFragment
  deriving DecidableEq, Repr

/-- Model of `ishex`. -/
def ishex (c : Char) : Bool :=
  isDigit c || decide (97 ≤ c.toNat ∧ c.toNat ≤ 102) || decide (65 ≤ c.toNat ∧ c.toNat ≤ 70)

/-- Model of `unhex`. -/
def unhex (c : Char) : Nat :=
  if isDigit c then c.toNat - 48
  else if 97 ≤ c.toNat ∧ c.toNat ≤ 102 then c.toNat - 97 + 10
  else if 65 ≤ c.toNat ∧ c.toNat ≤ 70 then c.toNat - 65 + 10
  else 0

/-- The apostrophe byte. -/
def apostrophe : Char := Char.ofNat 39

/-- Model of `shouldEscape`. -/
def shouldEscape (c : Char) (mode : Encoding) : Bool :=
  if isLower c || isUpper c || isDigit c then false
  else if (mode = .encodeHost ∨ mode = .encodeZone) ∧
      c ∈ ['!', '$', '&', apostrophe, '(', ')', '*', '+', ',', ';', '=', ':', '[', ']', '<', '>', '"']
  then false
  else if c ∈ ['-', '_', '.', '~'] then false
  else if c ∈ ['$', '&', '+', ',', '/', ':', ';', '=', '?', '@'] ∧ mode = .encodePath then
    decide (c = '?')
  else if c ∈ ['$', '&', '+', ',', '/', ':', ';', '=', '?', '@'] ∧ mode = .encodePathSegment then
    decide (c = '/' ∨ c = ';' ∨ c = ',' ∨ c = '?')
  else if c ∈ ['$', '&', '+', ',', '/', ':', ';', '=', '?', '@'] ∧ mode = .encodeUserPassword then
    decide (c = '@' ∨ c = '/' ∨ c = '?' ∨ c = ':')
  else if c ∈ ['$', '&', '+', ',', '/', ':', ';', '=', '?', '@'] ∧ mode = .encodeQueryComponent then
    true
  else if c ∈ ['$', '&', '+', ',', '/', ':', ';', '=', '?', '@'] ∧ mode = .encodeFragment then
    false
  else if mode = .encodeFragment ∧ c ∈ ['!', '(', ')', '*'] then false
  else true

/-- Model of `unescape`: checks the percent escapes and the host bytes from left
to right and decodes; Go checks in a first pass and decodes in a second. -/
def unescape : List Char → Encoding → Except GoError (List Char)
  | [], _ => .ok []
  | c :: rest, mode =>
    if c = '%' then
      match rest with
      | h1 :: h2 :: rest2 =>
        if ishex h1 && ishex h2 then
          let v := unhex h1 * 16 + unhex h2
          let is25 := decide (h1 = '2' ∧ h2 = '5')
          if decide (mode = .encodeHost) && decide (unhex h1 < 8) && !is25 then
            .error (.urlError "invalid URL escape")
          else if decide (mode = .encodeZone) && !is25 && decide (v ≠ 32)
              && shouldEscape (Char.ofNat v) .encodeHost then
            .error (.urlError "invalid URL escape")
          else
            match unescape rest2 mode with
            | .ok t => .ok (Char.ofNat v :: t)
            | .error e => .error e
        else .error (.urlError "invalid URL escape")
      | _ => .error (.urlError "invalid URL escape")
    else if decide (mode = .encodeHost ∨ mode = .encodeZone) && decide (c.toNat < 128)
        && shouldEscape c .encodeHost then
      .error (.urlError "invalid character in host name")
    else
      match unescape rest mode with
      | .ok t => .ok ((if c = '+' ∧ mode = .encodeQueryComponent then ' ' else c) :: t)
      | .error e => .error e

/-- Model of `strings.Cut` with a one-byte separator: the text before and
after its first occurrence. -/
def cutByte (s : List Char) (sep : Char) : List Char × List Char :=
  match indexByte s sep with
  | some i => (s.take i, s.drop (i + 1))
  | none => (s, [])

/-- Model of `stringContainsCTLByte`. -/
def stringContainsCTLByte (s : List Char) : Bool :=
  s.any (fun c => decide (c.toNat < 32 ∨ c.toNat = 127))

/-- ASCII lower-casing; a scheme holds ASCII bytes only. -/
def toLowerASCII (s : List Char) : List Char :=
  s.map (fun c => if isUpper c then Char.ofNat (c.toNat + 32) else c)

/-- The loop of `getScheme`; `i` is the index of the head of the text still to
be read. -/
def getSchemeLoop (rawURL : List Char) : List Char → Nat → Except GoError (List Char × List Char)
  | [], _ => .ok ([], rawURL)
  | c :: cs, i =>
    if isLower c || isUpper c then getSchemeLoop rawURL cs (i + 1)
    else if isDigit c || decide (c = '+' ∨ c = '-' ∨ c = '.') then
      if i = 0 then .ok ([], rawURL) else getSchemeLoop rawURL cs (i + 1)
    else if c = ':' then
      if i = 0 then .error (.urlError "missing protocol scheme")
      else .ok (rawURL.take i, rawURL.drop (i + 1))
    else .ok ([], rawURL)

/-- Model of `getScheme`. -/
def getScheme (rawURL : List Char) : Except GoError (List Char × List Char) :=
  getSchemeLoop rawURL rawURL 0

/-- Model of `validOptionalPort`. -/
def validOptionalPort (port : List Char) : Bool :=
  match port with
  | [] => true
  | c :: cs => decide (c = ':') && cs.all isDigit

/-- Model of `validUserinfo`. -/
def validUserinfo (s : List Char) : Bool :=
  s.all (fun c => isUpper c || isLower c || isDigit c ||
    decide (c ∈ ['-', '.', '_', ':', '~', '!', '$', '&', apostrophe,
                 '(', ')', '*', '+', ',', ';', '=', '%', '@']))

/-- Model of `parseHost`. -/
def parseHost (host : List Char) : Except GoError (List Char) :=
  if startsWith host ['['] then
    match lastIndexByte host ']' with
    | none => .error (.urlError "missing ']' in host")
    | some i =>
      if !validOptionalPort (host.drop (i + 1)) then
        .error (.urlError "invalid port after host")
      else
        match indexSub (host.take i) ['%', '2', '5'] with
        | some zone =>
          match unescape (host.take zone) .encodeHost with
          | .error e => .error e
          | .ok host1 =>
            match unescape ((host.take i).drop zone) .encodeZone with
            | .error e => .error e
            | .ok host2 =>
              match unescape (host.drop i) .encodeHost with
              | .error e => .error e
              | .ok host3 => .ok (host1 ++ host2 ++ host3)
        | none => unescape host .encodeHost
  else
    match lastIndexByte host ':' with
    | some i =>
      if !validOptionalPort (host.drop i) then .error (.urlError "invalid port after host")
      else unescape host .encodeHost
    | none => unescape host .encodeHost

/-- Model of `parseAuthority`. -/
def parseAuthority (authority : List Char) : Except GoError (Option Userinfo × List Char) :=
  match lastIndexByte authority '@' with
  | none =>
    match parseHost authority with
    | .error e => .error e
    | .ok host => .ok (none, host)
  | some i =>
    match parseHost (authority.drop (i + 1)) with
    | .error e => .error e
    | .ok host =>
      let userinfo := authority.take i
      if !validUserinfo userinfo then .error (.urlError "net/url: invalid userinfo")
      else if (indexByte userinfo ':').isNone then
        match unescape userinfo .encodeUserPassword with
        | .error e => .error e
        | .ok u => .ok (some { username := String.mk u, password := none }, host)
      else
        match unescape (cutByte userinfo ':').1 .encodeUserPassword with
        | .error e => .error e
        | .ok u =>
          match unescape (cutByte userinfo ':').2 .encodeUserPassword with
          | .error e => .error e
          | .ok p => .ok (some { username := String.mk u, password := some (String.mk p) }, host)

/-- Model of `URL.setPath`. -/
def setPath (u : URL) (p : List Char) : Except GoError URL :=
  match unescape p .encodePath with
  | .error e => .error e
  | .ok path => .ok { u with Path := String.mk path }

/-- The part of `parse` after the query is split off and a rootless path is
ruled out: the authority, then the path. -/
def parseAuthorityAndPath (u : URL) (rest : List Char) : Except GoError URL :=
  if (decide (u.Scheme ≠ "") || !startsWith rest ['/', '/', '/']) && startsWith rest ['/', '/'] then
    let authority := rest.drop 2
    let cut := match indexByte authority '/' with
      | some i => (authority.take i, authority.drop i)
      | none => (authority, [])
    match parseAuthority cut.1 with
    | .error e => .error e
    | .ok (user, host) => setPath { u with User := user, Host := String.mk host } cut.2
  else if decide (u.Scheme ≠ "") && startsWith rest ['/'] then
    setPath { u with OmitHost := true } rest
  else
    setPath u rest

/-- The part of `parse` after the query is split off, for `viaRequest = false`:
a rootless path after a scheme is opaque; without a scheme the first path
segment may hold no colon. -/
def parseAfterQuery (u : URL) (rest : List Char) : Except GoError URL :=
  if !startsWith rest ['/'] then
    if u.Scheme ≠ "" then .ok { u with Opaque := String.mk rest }
    else if (indexByte (cutByte rest '/').1 ':').isSome then
      .error (.urlError "first path segment in URL cannot contain colon")
    else parseAuthorityAndPath u rest
  else parseAuthorityAndPath u rest

/-- The part of `parse` after the scheme is split off: a lone trailing `?`
forces an empty query, otherwise the query is what follows the first `?`. -/
def parseAfterScheme (scheme : String) (rest0 : List Char) : Except GoError URL :=
  let forced := decide (rest0.getLast? = some '?') && decide (rest0.count '?' = 1)
  let rest := if forced then rest0.dropLast else (cutByte rest0 '?').1
  let rawQuery := if forced then [] else (cutByte rest0 '?').2
  parseAfterQuery
    { Scheme := scheme, Opaque := "", User := none, Host := "", Path := "",
      ForceQuery := forced, RawQuery := String.mk rawQuery, Fragment := "",
      OmitHost := false }
    rest

/-- Model of the unexported `parse` with `viaRequest = false`. -/
def parse (rawURL : List Char) : Except GoError URL :=
  if stringContainsCTLByte rawURL then
    .error (.urlError "net/url: invalid control character in URL")
  else if rawURL = ['*'] then
    .ok { Scheme := "", Opaque := "", User := none, Host := "", Path := "*",
          ForceQuery := false, RawQuery := "", Fragment := "", OmitHost := false }
  else
    match getScheme rawURL with
    | .error e => .error e
    | .ok (scheme, rest) => parseAfterScheme (String.mk (toLowerASCII scheme)) rest

/-- Model of `url.Parse`. -/
def urlParse (rawURL : String) : Except GoError URL :=
  let c := cutByte rawURL.data '#'
  match parse c.1 with
  | .error e => .error e
  | .ok u =>
    if c.2 = [] then .ok u
    else match unescape c.2 .encodeFragment with
      | .error e => .error e
      | .ok frag => .ok { u with Fragment := String.mk frag }

/-! ## New -/

/-- Model of `tls.LoadX509KeyPair`: read both files, then pair the PEM blocks. -/
def LoadX509KeyPair (env : Env) (fs : FS) (certFile keyFile : String) :
    Except GoError Certificate :=
  match ReadFile fs certFile with
  | .error e => .error e
  | .ok certPEM =>
    match ReadFile fs keyFile with
    | .error e => .error e
    | .ok keyPEM => env.x509KeyPair certPEM keyPEM

/-- Model of `Server`: the listen address of the embedded `http.Server`, the
certificates of its `TLSConfig`, and the target of the reverse proxy that is
its handler. -/
structure Server where
  Addr : String
  Certificates : List Certificate
  Target : URL
  deriving DecidableEq, Repr

/-- Result of `New`: the Server or the error, and the outside calls made. -/
structure NewOutcome where
  server : Option Server
  err : Option GoError
  trace : List Event

/-- Lines 147-150 of `New`: the address handed to `url.Parse`. -/
def proxyAddr (cfg : Config) : String :=
  if !reSchemeMatch cfg.ProxyAddr then "http://" ++ cfg.ProxyAddr else cfg.ProxyAddr

/-- Model of `New`. -/
def New (env : Env) (fs : FS) (cfg : Config) : NewOutcome :=
  match LoadX509KeyPair env fs cfg.CertificateFile cfg.KeyFile with
  | .error e =>
    { server := none, err := some e,
      trace := [Event.loadKeyPair cfg.CertificateFile cfg.KeyFile] }
  | .ok cert =>
    let trace := [Event.loadKeyPair cfg.CertificateFile cfg.KeyFile, Event.urlParse (proxyAddr cfg)]
    match urlParse (proxyAddr cfg) with
    | .error e => { server := none, err := some e, trace := trace }
    | .ok proxyURL =>
      let proxyURL := if proxyURL.Scheme.length = 0 then { proxyURL with Scheme := "http" }
        else proxyURL
      { server := some { Addr := ":" ++ toString cfg.ListenPort, Certificates := [cert],
                         Target := proxyURL },
        err := none, trace := trace }

/-- The text handed to `url.Parse`, if it was called. -/
def parsedAddr (trace : List Event) : Option String :=
  (trace.filterMap (fun e => match e with
    | .urlParse raw => some raw
    | _ => none)).head?

/-- The text begins with one or more lowercase letters followed by `://`. -/
def HasSchemeStart (s : String) : Prop :=
  ∃ letters rest : List Char, letters ≠ [] ∧ (∀ c ∈ letters, isLower c = true) ∧
    s.data = letters ++ [':', '/', '/'] ++ rest

/-! ## Concrete inputs -/

/-- A system where the certificate tool exits with status 0, prints nothing and
writes no file, and where any two PEM blocks pair. -/
def quietEnv : Env :=
  { run := fun _ fs => { out := "", err := none, fs := fs },
    x509KeyPair := fun c k => .ok { certPEM := c, keyPEM := k } }

/-- A system where the certificate tool fails with the given exit status after
printing the given output. -/
def failingEnv (status : Nat) (out : String) : Env :=
  { run := fun _ fs => { out := out, err := some (.exitError status), fs := fs },
    x509KeyPair := fun c k => .ok { certPEM := c, keyPEM := k } }

/-- The empty filesystem. -/
def emptyFS : FS := fun _ => none

/-- A filesystem holding a certificate and a key for `myhost` under `certs`. -/
def certsFS : FS := fun p =>
  if p = "certs/myhost.pem" then some { kind := .regular, content := "CERT" }
  else if p = "certs/myhost-key.pem" then some { kind := .regular, content := "KEY" }
  else none

/-- A filesystem where the certificate path of `myhost` is a directory. -/
def dirFS : FS := fun p =>
  if p = "certs/myhost.pem" then some { kind := .directory, content := "" }
  else none

/-- The zero Config, as `main` starts from. -/
def zeroConfig : Config :=
  { Domain := "", CertificateFile := "", KeyFile := "", ListenPort := 0, ProxyAddr := "",
    MakeCerts := none }

/-- A Config with caller-supplied certificate and key paths. -/
def suppliedConfig : Config :=
  { Domain := "", CertificateFile := "cert.pem", KeyFile := "key.pem", ListenPort := 0,
    ProxyAddr := "", MakeCerts := none }

/-- A filesystem where both paths of `myhost` under `certs` are sockets. -/
def socketFS : FS := fun p =>
  if p = "certs/myhost.pem" then some { kind := .other, content := "" }
  else if p = "certs/myhost-key.pem" then some { kind := .other, content := "" }
  else none

/-- The Config `main` builds from `-proxy example.com:9000`. -/
def proxyConfig : Config :=
  { Domain := "", CertificateFile := "", KeyFile := "", ListenPort := 0,
    ProxyAddr := "example.com:9000", MakeCerts := none }

/-- The Config `proxyConfig` after `SetHostAndListenAddr` on `:8080`. -/
def hostlessConfig : Config :=
  { Domain := "", CertificateFile := "", KeyFile := "", ListenPort := 8080,
    ProxyAddr := "example.com:9000", MakeCerts := none }

/-- A Config for `myhost` with both paths under `certs` and the given target. -/
def myhostConfig (target : String) : Config :=
  { Domain := "myhost", CertificateFile := "certs/myhost.pem",
    KeyFile := "certs/myhost-key.pem", ListenPort := 8443, ProxyAddr := target,
    MakeCerts := none }

/-- The URL that `http://example.com:9000` parses to. -/
def exampleTarget : URL :=
  { Scheme := "http", Opaque := "", User := none, Host := "example.com:9000", Path := "",
    ForceQuery := false, RawQuery := "", Fragment := "", OmitHost := false }

/-! ## Lemmas on `SetHostAndListenAddr` -/

theorem length_ne_zero_of_ne_empty (s : String) (h : s ≠ "") : ¬ s.length = 0 := by
  intro h0
  apply h
  have hd : s.data = [] := List.length_eq_zero.mp h0
  exact String.ext hd

theorem length_zero_of_empty (s : String) (h : s = "") : s.length = 0 := by
  subst h
  rfl

/-- With a listen string that splits into a non-empty host and a port that
parses, the call stores port and host and goes on to the certificate paths. -/
theorem setHost_reaches_certStep (env : Env) (fs : FS) (cfg : Config)
    (certdir listen host port : String) (num : Int)
    (hsplit : SplitHostPort listen = .ok (host, port)) (hhost : host ≠ "")
    (hport : Atoi port = .ok num) :
    SetHostAndListenAddr env fs (some cfg) certdir listen =
      certStep env fs { cfg with ListenPort := num, Domain := host } certdir host := by
  simp only [SetHostAndListenAddr, hsplit, hport]
  rw [if_neg (length_ne_zero_of_ne_empty host hhost)]

theorem provisionStep_calls (env : Env) (fs : FS) (cfg : Config) (b : Bool) (tr : List Event) :
    provisionerCalls (provisionStep env fs cfg b tr).trace =
      provisionerCalls tr + (if b then 1 else 0) := by
  cases b
  · simp [provisionStep]
  · simp only [provisionStep, provisionerCalls, if_true, List.countP_append, List.countP_cons]
    have : List.countP (fun e => match e with
        | Event.makeCerts _ => true
        | _ => false) (List.map Event.log (cfg.makeCerts env fs).logs) = 0 := by
      rw [List.countP_eq_zero]
      intro e he
      rw [List.mem_map] at he
      obtain ⟨l, _, rfl⟩ := he
      simp
    rw [this]

theorem statIsDir_iff (fs : FS) (p : String) : statIsDir (Stat fs p) = true ↔ IsDirectory fs p := by
  unfold IsDirectory statIsDir
  cases h : Stat fs p with
  | error e => simp
  | ok info => simp

theorem statFailed_iff (fs : FS) (p : String) : statFailed (Stat fs p) = true ↔ StatFails fs p := by
  unfold StatFails statFailed
  cases h : Stat fs p with
  | error e => simp
  | ok info => simp

/-- C1. With `CertificateFile` and `KeyFile` unset, a listen string with a
non-empty host and a port that parses, and neither computed path a directory:
if one of the two paths fails to stat the provisioner (`cfg.MakeCerts`, or
`MkCert` when that is unset) is invoked exactly once, on the Config holding the
computed paths, and its error is returned; if both paths are regular files it
is not invoked, no error is returned, and `CertificateFile` and `KeyFile` are
the computed paths. -/
theorem C1_provisioning_decision (env : Env) (fs : FS) (cfg : Config)
    (certdir listen host port : String) (num : Int)
    (hsplit : SplitHostPort listen = .ok (host, port)) (hhost : host ≠ "")
    (hport : Atoi port = .ok num)
    (hc : cfg.CertificateFile = "") (hk : cfg.KeyFile = "")
    (hcd : ¬ IsDirectory fs (certPath certdir host))
    (hkd : ¬ IsDirectory fs (keyPath certdir host)) :
    ((StatFails fs (certPath certdir host) ∨ StatFails fs (keyPath certdir host)) →
      provisionerCalls (SetHostAndListenAddr env fs (some cfg) certdir listen).trace = 1 ∧
      (SetHostAndListenAddr env fs (some cfg) certdir listen).err =
        ((cfg.MakeCerts.getD (MkCert env))
          { Domain := host, CertificateFile := certPath certdir host,
            KeyFile := keyPath certdir host, ListenPort := num,
            ProxyAddr := cfg.ProxyAddr } fs).err) ∧
    ((IsRegularFile fs (certPath certdir host) ∧ IsRegularFile fs (keyPath certdir host)) →
      provisionerCalls (SetHostAndListenAddr env fs (some cfg) certdir listen).trace = 0 ∧
      (SetHostAndListenAddr env fs (some cfg) certdir listen).err = none ∧
      (SetHostAndListenAddr env fs (some cfg) certdir listen).cfg.map (·.CertificateFile) =
        some (certPath certdir host) ∧
      (SetHostAndListenAddr env fs (some cfg) certdir listen).cfg.map (·.KeyFile) =
        some (keyPath certdir host)) := by
  rw [setHost_reaches_certStep env fs cfg certdir listen host port num hsplit hhost hport]
  rw [← statIsDir_iff] at hcd hkd
  simp only [Bool.not_eq_true] at hcd hkd
  unfold certPath at hcd
  unfold keyPath at hkd
  have e1 : certStep env fs { cfg with ListenPort := num, Domain := host } certdir host =
      provisionStep env fs
        { cfg with ListenPort := num, Domain := host,
                   CertificateFile := Join certdir (host ++ ".pem"),
                   KeyFile := Join certdir (host ++ "-key.pem") }
        (if statFailed (Stat fs (Join certdir (host ++ "-key.pem"))) then true
          else if statFailed (Stat fs (Join certdir (host ++ ".pem"))) then true else false)
        [Event.stat (Join certdir (host ++ ".pem")),
         Event.stat (Join certdir (host ++ "-key.pem"))] := by
    simp [certStep, keyStep, hc, hk, hcd, hkd, length_zero_of_empty]
  rw [e1]
  constructor
  · intro hfail
    rw [← statFailed_iff, ← statFailed_iff] at hfail
    unfold certPath keyPath at hfail
    have hb : (if statFailed (Stat fs (Join certdir (host ++ "-key.pem"))) then true
          else if statFailed (Stat fs (Join certdir (host ++ ".pem"))) then true else false) = true := by
      rcases hfail with h | h <;> simp [h]
    rw [hb]
    constructor
    · rw [provisionStep_calls]; rfl
    · cases hm : cfg.MakeCerts <;>
        simp [provisionStep, Config.makeCerts, hm, certPath, keyPath]
  · rintro ⟨hrc, hrk⟩
    unfold IsRegularFile certPath at hrc
    unfold IsRegularFile keyPath at hrk
    have hb : (if statFailed (Stat fs (Join certdir (host ++ "-key.pem"))) then true
          else if statFailed (Stat fs (Join certdir (host ++ ".pem"))) then true else false) = false := by
      simp [hrc, hrk, statFailed]
    rw [hb]
    refine ⟨?_, ?_, ?_, ?_⟩
    · rw [provisionStep_calls]; rfl
    · simp [provisionStep]
    · simp [provisionStep, certPath]
    · simp [provisionStep, keyPath]

theorem length_eq_zero_iff (s : String) : s.length = 0 ↔ s = "" :=
  ⟨fun h => by_contra (fun hne => length_ne_zero_of_ne_empty s hne h), length_zero_of_empty s⟩

/-- C4. With a listen string with a non-empty host and a port that parses: if
`CertificateFile` was unset and the computed certificate path is a directory,
or `KeyFile` was unset and the computed key path is a directory, the call
returns the directory error of one of the two paths and the provisioner is not
invoked. -/
theorem C4_directory_is_fatal (env : Env) (fs : FS) (cfg : Config)
    (certdir listen host port : String) (num : Int)
    (hsplit : SplitHostPort listen = .ok (host, port)) (hhost : host ≠ "")
    (hport : Atoi port = .ok num)
    (hdir : (cfg.CertificateFile = "" ∧ IsDirectory fs (certPath certdir host)) ∨
            (cfg.KeyFile = "" ∧ IsDirectory fs (keyPath certdir host))) :
    ((SetHostAndListenAddr env fs (some cfg) certdir listen).err =
        some (.certIsDir (certPath certdir host)) ∨
     (SetHostAndListenAddr env fs (some cfg) certdir listen).err =
        some (.keyIsDir (keyPath certdir host))) ∧
    provisionerCalls (SetHostAndListenAddr env fs (some cfg) certdir listen).trace = 0 := by
  rw [setHost_reaches_certStep env fs cfg certdir listen host port num hsplit hhost hport]
  simp only [← statIsDir_iff, certPath, keyPath] at hdir
  simp only [certPath, keyPath]
  rcases hdir with ⟨hc, hd⟩ | ⟨hk, hd⟩
  · simp [certStep, hc, hd, length_zero_of_empty, provisionerCalls]
  · by_cases hc : cfg.CertificateFile = ""
    · cases hcd : statIsDir (Stat fs (Join certdir (host ++ ".pem")))
      · simp [certStep, keyStep, hc, hk, hd, hcd, length_zero_of_empty, provisionerCalls]
      · simp [certStep, hc, hcd, length_zero_of_empty, provisionerCalls]
    · simp [certStep, keyStep, hc, hk, hd, length_eq_zero_iff, length_zero_of_empty,
        provisionerCalls]

/-- C2, as amended.  When the call returns without error on a listen string with
a non-empty host and did not invoke the provisioner, the filesystem is as it
was, and each of `CertificateFile` and `KeyFile` that was unset on entry names
its computed path, which exists and is not a directory. -/
theorem C2_computed_paths_exist (env : Env) (fs : FS) (cfg : Config)
    (certdir listen host port : String) (num : Int)
    (hsplit : SplitHostPort listen = .ok (host, port)) (hhost : host ≠ "")
    (hport : Atoi port = .ok num)
    (herr : (SetHostAndListenAddr env fs (some cfg) certdir listen).err = none)
    (hcalls : provisionerCalls (SetHostAndListenAddr env fs (some cfg) certdir listen).trace = 0) :
    (SetHostAndListenAddr env fs (some cfg) certdir listen).fs = fs ∧
    (cfg.CertificateFile = "" →
      (SetHostAndListenAddr env fs (some cfg) certdir listen).cfg.map (·.CertificateFile) =
        some (certPath certdir host) ∧
      ∃ info, Stat fs (certPath certdir host) = .ok info ∧ info.IsDir = false) ∧
    (cfg.KeyFile = "" →
      (SetHostAndListenAddr env fs (some cfg) certdir listen).cfg.map (·.KeyFile) =
        some (keyPath certdir host) ∧
      ∃ info, Stat fs (keyPath certdir host) = .ok info ∧ info.IsDir = false) := by
  rw [setHost_reaches_certStep env fs cfg certdir listen host port num hsplit hhost hport]
    at herr hcalls ⊢
  simp only [certPath, keyPath]
  by_cases hc : cfg.CertificateFile = "" <;> by_cases hk : cfg.KeyFile = "" <;>
    cases h1 : Stat fs (Join certdir (host ++ ".pem")) <;>
    cases h2 : Stat fs (Join certdir (host ++ "-key.pem")) <;>
    simp [certStep, keyStep, provisionStep, hc, hk, h1, h2, length_eq_zero_iff,
      length_zero_of_empty, statIsDir, statFailed, provisionerCalls, List.countP_append,
      List.countP_cons] at herr hcalls ⊢ <;>
    (try split at herr) <;> (try split at herr) <;>
    simp_all [provisionerCalls, List.countP_append, List.countP_cons]

/-! ## Lemmas on the string functions -/

theorem lastIndexByte_eq_none (l : List Char) (c : Char) :
    lastIndexByte l c = none ↔ c ∉ l := by
  induction l with
  | nil => simp [lastIndexByte]
  | cons x xs ih =>
    cases h : lastIndexByte xs c with
    | none =>
      have hx := ih.mp h
      by_cases hxc : x = c
      · simp [lastIndexByte, h, hxc]
      · simp [lastIndexByte, h, hxc, hx, Ne.symm hxc]
    | some i =>
      have hx : c ∈ xs := by
        by_contra hn
        rw [ih.mpr hn] at h
        cases h
      simp [lastIndexByte, h, hx]

theorem indexByte_eq_none (l : List Char) (c : Char) :
    indexByte l c = none ↔ c ∉ l := by
  induction l with
  | nil => simp [indexByte]
  | cons x xs ih =>
    by_cases hxc : x = c
    · simp [indexByte, hxc]
    · cases h : indexByte xs c with
      | none => simp [indexByte, hxc, h, ih.mp h, Ne.symm hxc]
      | some i =>
        have hx : c ∈ xs := by
          by_contra hn
          rw [ih.mpr hn] at h
          cases h
        simp [indexByte, hxc, h, hx]

/-- The last index of `c` cuts the list at `c`. -/
theorem lastIndexByte_split (l : List Char) (c : Char) (i : Nat)
    (h : lastIndexByte l c = some i) :
    l = l.take i ++ c :: l.drop (i + 1) := by
  induction l generalizing i with
  | nil => simp [lastIndexByte] at h
  | cons x xs ih =>
    cases hx : lastIndexByte xs c with
    | none =>
      simp only [lastIndexByte, hx] at h
      by_cases hxc : x = c
      · simp [hxc] at h
        subst h
        simp [hxc]
      · simp [hxc] at h
    | some j =>
      simp only [lastIndexByte, hx] at h
      injection h with h
      subst h
      have := ih j hx
      simp only [List.take_succ_cons, List.drop_succ_cons, List.cons_append]
      rw [← this]

/-- The first index of `c` cuts the list at `c`. -/
theorem indexByte_split (l : List Char) (c : Char) (i : Nat)
    (h : indexByte l c = some i) :
    l = l.take i ++ c :: l.drop (i + 1) := by
  induction l generalizing i with
  | nil => simp [indexByte] at h
  | cons x xs ih =>
    by_cases hxc : x = c
    · simp [indexByte, hxc] at h
      subst h
      simp [hxc]
    · cases hx : indexByte xs c with
      | none => simp [indexByte, hxc, hx] at h
      | some j =>
        simp [indexByte, hxc, hx] at h
        subst h
        have := ih j hx
        simp only [List.take_succ_cons, List.drop_succ_cons, List.cons_append]
        rw [← this]

theorem parseUintLoop_ok_digits (s : List Char) (n m : Nat)
    (h : parseUintLoop s n = .ok m) : s.all isDigit = true := by
  induction s generalizing n with
  | nil => rfl
  | cons c cs ih =>
    simp only [parseUintLoop] at h
    by_cases hd : isDigit c = true
    · simp only [hd, if_true] at h
      split at h
      · cases h
      · simp [hd, ih _ h]
    · simp [hd] at h

theorem parseUintLoop_not_digits (s : List Char) (n : Nat)
    (h : s.all isDigit = false) : ∃ k, parseUintLoop s n = .error k := by
  cases hp : parseUintLoop s n with
  | error k => exact ⟨k, rfl⟩
  | ok m =>
    rw [parseUintLoop_ok_digits s n m hp] at h
    cases h

/-- A port that is no numeral is rejected by `Atoi`. -/
theorem Atoi_not_numeral (s : String) (h : isNumeral s.data = false) :
    ∃ e, Atoi s = .error e := by
  unfold Atoi
  cases hs : s.data with
  | nil => exact ⟨_, rfl⟩
  | cons c cs =>
    rw [hs] at h
    simp only [isNumeral] at h
    simp only [parseInt, parseUint]
    by_cases hb : (if c = '+' ∨ c = '-' then cs else c :: cs) = []
    · simp [hb]
    · have hall : (if c = '+' ∨ c = '-' then cs else c :: cs).all isDigit = false := by
        have hne : (if c = '+' ∨ c = '-' then cs else c :: cs).isEmpty = false := by
          cases hl : (if c = '+' ∨ c = '-' then cs else c :: cs) with
          | nil => exact absurd hl hb
          | cons _ _ => rfl
        rw [hne] at h
        simpa using h
      obtain ⟨k, hk⟩ := parseUintLoop_not_digits _ 0 hall
      simp [hb, hk]

/-- What `Atoi` accepts is a numeral. -/
theorem Atoi_ok_numeral (s : String) (n : Int) (h : Atoi s = .ok n) :
    isNumeral s.data = true := by
  cases hn : isNumeral s.data with
  | true => rfl
  | false =>
    obtain ⟨e, he⟩ := Atoi_not_numeral s hn
    rw [he] at h
    cases h

theorem lastIndexByte_drop (l : List Char) (c : Char) (i : Nat)
    (h : lastIndexByte l c = some i) :
    l.drop i = c :: l.drop (i + 1) := by
  induction l generalizing i with
  | nil => simp [lastIndexByte] at h
  | cons x xs ih =>
    cases hx : lastIndexByte xs c with
    | none =>
      simp only [lastIndexByte, hx] at h
      by_cases hxc : x = c
      · simp [hxc] at h
        subst h
        simp [hxc]
      · simp [hxc] at h
    | some j =>
      simp only [lastIndexByte, hx] at h
      injection h with h
      subst h
      simpa using ih j hx

/-- What `SplitHostPort` returns rebuilds the input: the input is `host:port`,
or `[host]:port`. -/
theorem SplitHostPort_rebuild (listen host port : String)
    (h : SplitHostPort listen = .ok (host, port)) :
    listen = host ++ ":" ++ port ∨ listen = "[" ++ host ++ "]:" ++ port := by
  unfold SplitHostPort at h
  simp only at h
  cases hi : lastIndexByte listen.data ':' with
  | none => simp [hi] at h
  | some i =>
    simp only [hi] at h
    have hsp := lastIndexByte_split _ _ _ hi
    have hdr := lastIndexByte_drop _ _ _ hi
    by_cases hb : listen.data.head? = some '['
    · right
      simp only [hb, if_true] at h
      cases he : indexByte listen.data ']' with
      | none => simp [he] at h
      | some e =>
        simp only [he] at h
        split at h
        · cases h
        · split at h
          · rename_i _ hei
            unfold splitTail at h
            split at h
            · cases h
            · split at h
              · cases h
              · injection h with h
                injection h with h1 h2
                have hes := indexByte_split _ _ _ he
                cases hl : listen.data with
                | nil => simp [hl] at hb
                | cons x tl =>
                  rw [hl] at hb hes he hdr h1 h2
                  simp only [List.head?_cons, Option.some.injEq] at hb
                  subst hb
                  cases e with
                  | zero =>
                    simp only [indexByte] at he
                    cases hq : indexByte tl ']' <;> simp [hq] at he
                  | succ j =>
                    subst hei
                    simp only [List.take_succ_cons, List.drop_succ_cons, List.drop_zero] at h1
                    simp only [List.drop_succ_cons] at hdr h2 hes
                    apply String.ext
                    rw [hl, ← h1, ← h2]
                    simp only [String.data_append]
                    show '[' :: tl = ['['] ++ List.take j tl ++ [']', ':'] ++ List.drop (j + 1 + 1) tl
                    simp only [List.take_succ_cons, List.cons_append, List.nil_append,
                      List.cons.injEq, true_and] at hes
                    have hd2 : List.drop (j + 1) tl = ':' :: List.drop (j + 1 + 1) tl := by
                      simpa using hdr
                    rw [hd2] at hes
                    simp only [List.cons_append, List.nil_append, List.append_assoc,
                      List.cons.injEq, true_and]
                    exact hes
          · split at h <;> cases h
    · left
      simp only [hb, if_false] at h
      split at h
      · cases h
      · unfold splitTail at h
        split at h
        · cases h
        · split at h
          · cases h
          · injection h with h
            injection h with h1 h2
            apply String.ext
            rw [← h1, ← h2]
            simp only [String.data_append]
            show listen.data = List.take i listen.data ++ [':'] ++ List.drop (i + 1) listen.data
            simpa using hsp

theorem isNumeral_chars (s : List Char) (h : isNumeral s = true) :
    ∀ c ∈ s, isDigit c = true ∨ c = '+' ∨ c = '-' := by
  cases s with
  | nil => simp [isNumeral] at h
  | cons x xs =>
    simp only [isNumeral, Bool.and_eq_true, List.all_eq_true] at h
    intro c hc
    by_cases hx : x = '+' ∨ x = '-'
    · simp only [hx, if_true] at h
      rcases List.mem_cons.mp hc with rfl | hc
      · exact Or.inr hx
      · exact Or.inl (h.2 c hc)
    · simp only [hx, if_false] at h
      exact Or.inl (h.2 c hc)

/-- An empty host before a numeral port: `":" ++ port` splits into `""` and the port. -/
theorem SplitHostPort_empty_host (p : String) (h : isNumeral p.data = true) :
    SplitHostPort (":" ++ p) = .ok ("", p) := by
  have hch := isNumeral_chars _ h
  have hnot : ∀ c : Char, isDigit c = false → c ≠ '+' → c ≠ '-' → c ∉ p.data := by
    intro c h1 h2 h3 hc
    rcases hch c hc with h | h | h
    · rw [h1] at h; cases h
    · exact h2 h
    · exact h3 h
  have hcolon : ':' ∉ p.data := hnot ':' (by decide) (by decide) (by decide)
  have hopen : '[' ∉ p.data := hnot '[' (by decide) (by decide) (by decide)
  have hclose : ']' ∉ p.data := hnot ']' (by decide) (by decide) (by decide)
  have hdata : (":" ++ p).data = ':' :: p.data := by
    simp only [String.data_append]
    rfl
  have hlast : lastIndexByte (':' :: p.data) ':' = some 0 := by
    simp [lastIndexByte, (lastIndexByte_eq_none _ _).mpr hcolon]
  have ho : indexByte p.data '[' = none := (indexByte_eq_none _ _).mpr hopen
  have hc : indexByte p.data ']' = none := (indexByte_eq_none _ _).mpr hclose
  simp only [SplitHostPort, hdata, hlast]
  simp [splitTail, indexByte, ho, hc]

theorem provisionStep_cfg (env : Env) (fs : FS) (c : Config) (b : Bool) (tr : List Event) :
    (provisionStep env fs c b tr).cfg = some c := by
  cases b <;> rfl

/-- The key step leaves the Config with `KeyFile` filled in if it was unset. -/
theorem keyStep_cfg (env : Env) (fs : FS) (c : Config) (certdir host : String) (b : Bool)
    (tr : List Event) :
    (keyStep env fs c certdir host b tr).cfg =
      some (if c.KeyFile = "" then { c with KeyFile := Join certdir (host ++ "-key.pem") }
            else c) := by
  unfold keyStep
  simp only [length_eq_zero_iff]
  by_cases hk : c.KeyFile = ""
  · simp only [hk, if_true]
    split
    · rfl
    · rw [provisionStep_cfg]
  · simp only [hk, if_false]
    rw [provisionStep_cfg]

/-- The certificate step either stops at a certificate path that is a
directory, or goes through the key step with `CertificateFile` filled in. -/
theorem certStep_cases (env : Env) (fs : FS) (c : Config) (certdir host : String) :
    (c.CertificateFile = "" ∧
      (certStep env fs c certdir host).err = some (.certIsDir (Join certdir (host ++ ".pem"))) ∧
      (certStep env fs c certdir host).cfg =
        some { c with CertificateFile := Join certdir (host ++ ".pem") }) ∨
    (∃ b tr, certStep env fs c certdir host =
      keyStep env fs (if c.CertificateFile = "" then
          { c with CertificateFile := Join certdir (host ++ ".pem") } else c)
        certdir host b tr) := by
  unfold certStep
  simp only [length_eq_zero_iff]
  by_cases hc : c.CertificateFile = ""
  · simp only [hc, if_true]
    split
    · exact Or.inl ⟨trivial, rfl, rfl⟩
    · exact Or.inr ⟨_, _, rfl⟩
  · simp only [hc, if_false]
    exact Or.inr ⟨_, _, rfl⟩

/-- The certificate and key steps write only `CertificateFile` and `KeyFile`. -/
theorem certStep_keeps_fields (env : Env) (fs : FS) (c : Config) (certdir host : String) :
    ∃ c1, (certStep env fs c certdir host).cfg = some c1 ∧
      c1.ListenPort = c.ListenPort ∧ c1.Domain = c.Domain ∧ c1.ProxyAddr = c.ProxyAddr := by
  rcases certStep_cases env fs c certdir host with ⟨_, _, h⟩ | ⟨b, tr, h⟩
  · exact ⟨_, h, rfl, rfl, rfl⟩
  · rw [h, keyStep_cfg]
    refine ⟨_, rfl, ?_⟩
    split <;> split <;> exact ⟨rfl, rfl, rfl⟩

/-- C3. For every listen string: when it splits into host and port (so that it
is `host:port` or `[host]:port`) and the port parses as a base-10 integer, the
call sets `ListenPort` to that integer and, for a non-empty host, `Domain` to
the host; when the string has no colon, or its port is no numeral, the call
returns an error. -/
theorem C3_listen_address (env : Env) (fs : FS) (cfg : Config) (certdir listen : String) :
    (∀ host port num, SplitHostPort listen = .ok (host, port) → Atoi port = .ok num →
      (listen = host ++ ":" ++ port ∨ listen = "[" ++ host ++ "]:" ++ port) ∧
      (SetHostAndListenAddr env fs (some cfg) certdir listen).cfg.map (·.ListenPort) = some num ∧
      (host ≠ "" →
        (SetHostAndListenAddr env fs (some cfg) certdir listen).cfg.map (·.Domain) = some host)) ∧
    (':' ∉ listen.data →
      (SetHostAndListenAddr env fs (some cfg) certdir listen).err ≠ none) ∧
    (∀ host port, SplitHostPort listen = .ok (host, port) → isNumeral port.data = false →
      (SetHostAndListenAddr env fs (some cfg) certdir listen).err ≠ none) := by
  refine ⟨?_, ?_, ?_⟩
  · intro host port num hsplit hport
    refine ⟨SplitHostPort_rebuild listen host port hsplit, ?_, ?_⟩
    · by_cases hh : host = ""
      · simp [SetHostAndListenAddr, hsplit, hport, hh, length_zero_of_empty]
      · rw [setHost_reaches_certStep env fs cfg certdir listen host port num hsplit hh hport]
        obtain ⟨c1, hc1, hl, _, _⟩ :=
          certStep_keeps_fields env fs { cfg with ListenPort := num, Domain := host } certdir host
        rw [hc1]
        simp [hl]
    · intro hh
      rw [setHost_reaches_certStep env fs cfg certdir listen host port num hsplit hh hport]
      obtain ⟨c1, hc1, _, hd, _⟩ :=
        certStep_keeps_fields env fs { cfg with ListenPort := num, Domain := host } certdir host
      rw [hc1]
      simp [hd]
  · intro hno
    have hl := (lastIndexByte_eq_none _ _).mpr hno
    simp [SetHostAndListenAddr, SplitHostPort, hl]
  · intro host port hsplit hnum
    obtain ⟨e, he⟩ := Atoi_not_numeral port hnum
    simp [SetHostAndListenAddr, hsplit, he]

/-- C5. For a listen string `":" ++ port` whose port parses as an integer, the
call returns no error, sets `ListenPort` to the port and changes nothing else
of the Config, makes no outside call (no stat, no provisioner) and leaves the
filesystem as it was. -/
theorem C5_empty_host (env : Env) (fs : FS) (cfg : Config) (certdir port : String) (num : Int)
    (hport : Atoi port = .ok num) :
    (SetHostAndListenAddr env fs (some cfg) certdir (":" ++ port)).err = none ∧
    (SetHostAndListenAddr env fs (some cfg) certdir (":" ++ port)).cfg =
      some { cfg with ListenPort := num } ∧
    (SetHostAndListenAddr env fs (some cfg) certdir (":" ++ port)).trace = [] ∧
    (SetHostAndListenAddr env fs (some cfg) certdir (":" ++ port)).fs = fs := by
  have hsplit := SplitHostPort_empty_host port (Atoi_ok_numeral port num hport)
  simp [SetHostAndListenAddr, hsplit, hport]

theorem Clean_ne_nil (p : List Char) : Clean p ≠ [] := by
  have key : ∀ body : List Char, (if body = [] then ['.'] else body) ≠ [] := by
    intro body
    split
    · simp
    · assumption
  unfold Clean
  by_cases hp : p = []
  · simp [hp]
  · simp only [hp, if_false]
    exact key _

/-- A path joined from a non-empty last element is not empty. -/
theorem Join_ne_empty (a b : String) (hb : b ≠ "") : Join a b ≠ "" := by
  unfold Join
  intro h
  by_cases ha : a = ""
  · simp only [ha, ne_eq, not_true_eq_false, if_false, hb, not_false_eq_true, if_true] at h
    exact Clean_ne_nil _ (congrArg String.data h)
  · simp only [ne_eq, ha, not_false_eq_true, if_true] at h
    exact Clean_ne_nil _ (congrArg String.data h)

theorem append_ne_empty (a b : String) (hb : b ≠ "") : a ++ b ≠ "" := by
  intro h
  apply hb
  have := congrArg String.data h
  simp only [String.data_append] at this
  exact String.ext (List.append_eq_nil.mp this).2

/-- After a call that did not stop at the certificate path, both paths are set. -/
theorem certStep_sets_paths (env : Env) (fs : FS) (c : Config) (certdir host : String)
    (hnc : (certStep env fs c certdir host).err ≠ some (.certIsDir (Join certdir (host ++ ".pem")))) :
    ∃ c1, (certStep env fs c certdir host).cfg = some c1 ∧
      c1.CertificateFile ≠ "" ∧ c1.KeyFile ≠ "" ∧ c1.Domain = c.Domain ∧
      c1.ListenPort = c.ListenPort ∧ c1.ProxyAddr = c.ProxyAddr ∧ c1.MakeCerts = c.MakeCerts := by
  have hcp : Join certdir (host ++ ".pem") ≠ "" :=
    Join_ne_empty _ _ (append_ne_empty _ _ (by decide))
  have hkp : Join certdir (host ++ "-key.pem") ≠ "" :=
    Join_ne_empty _ _ (append_ne_empty _ _ (by decide))
  rcases certStep_cases env fs c certdir host with ⟨_, h, _⟩ | ⟨b, tr, h⟩
  · exact absurd h hnc
  · rw [h, keyStep_cfg]
    refine ⟨_, rfl, ?_⟩
    by_cases hc : c.CertificateFile = "" <;> by_cases hk : c.KeyFile = "" <;>
      simp [hc, hk, hcp, hkp]

/-! ## Lemmas on the scheme pattern and `url.Parse` -/

theorem startsWith_iff (l p : List Char) : startsWith l p = true ↔ ∃ r, l = p ++ r := by
  induction p generalizing l with
  | nil => simp [startsWith]
  | cons y ys ih =>
    cases l with
    | nil => simp [startsWith]
    | cons x xs =>
      simp only [startsWith, Bool.and_eq_true, beq_iff_eq, ih, List.cons_append, List.cons.injEq]
      constructor
      · rintro ⟨rfl, r, rfl⟩
        exact ⟨r, rfl, rfl⟩
      · rintro ⟨r, rfl, rfl⟩
        exact ⟨rfl, r, rfl⟩

theorem isLower_colon : isLower ':' = false := by decide

theorem takeWhile_letters (letters rest : List Char) (h : ∀ c ∈ letters, isLower c = true) :
    (letters ++ ':' :: rest).takeWhile isLower = letters ∧
    (letters ++ ':' :: rest).dropWhile isLower = ':' :: rest := by
  induction letters with
  | nil => simp [List.takeWhile, List.dropWhile, isLower_colon]
  | cons x xs ih =>
    have hx : isLower x = true := h x (List.mem_cons_self _ _)
    have := ih (fun c hc => h c (List.mem_cons_of_mem _ hc))
    simp [List.takeWhile, List.dropWhile, hx, this]

/-- The pattern matches exactly the texts that begin with one or more
lowercase letters followed by `://`. -/
theorem reSchemeMatch_iff (s : String) : reSchemeMatch s = true ↔ HasSchemeStart s := by
  unfold reSchemeMatch HasSchemeStart
  simp only [Bool.and_eq_true, Bool.not_eq_true', startsWith_iff]
  constructor
  · rintro ⟨hne, r, hr⟩
    refine ⟨s.data.takeWhile isLower, r, ?_, ?_, ?_⟩
    · intro h
      rw [h] at hne
      cases hne
    · intro c hc
      exact (List.mem_takeWhile_imp hc)
    · rw [List.append_assoc, ← hr, List.takeWhile_append_dropWhile]
  · rintro ⟨letters, rest, hne, hall, hs⟩
    have := takeWhile_letters letters ('/' :: '/' :: rest) hall
    have hs2 : s.data = letters ++ ':' :: '/' :: '/' :: rest := by
      rw [hs]; simp
    rw [hs2, this.1, this.2]
    refine ⟨?_, rest, rfl⟩
    cases letters with
    | nil => exact absurd rfl hne
    | cons _ _ => rfl

theorem http_data (s : String) :
    ("http://" ++ s).data = ['h', 't', 't', 'p'] ++ [':', '/', '/'] ++ s.data := by
  simp only [String.data_append]
  rfl

theorem hasSchemeStart_http (s : String) : HasSchemeStart ("http://" ++ s) :=
  ⟨['h', 't', 't', 'p'], s.data, by simp, by decide, http_data s⟩

/-- The address handed to the parser always begins with a scheme. -/
theorem proxyAddr_hasSchemeStart (cfg : Config) : HasSchemeStart (proxyAddr cfg) := by
  unfold proxyAddr
  cases h : reSchemeMatch cfg.ProxyAddr with
  | true => simpa using (reSchemeMatch_iff _).mp h
  | false => simpa using hasSchemeStart_http _

theorem cutByte_cons_fst (x : Char) (l : List Char) (c : Char) (hx : x ≠ c) :
    (cutByte (x :: l) c).1 = x :: (cutByte l c).1 := by
  unfold cutByte
  cases h : indexByte l c <;> simp [indexByte, hx, h]

theorem cutByte_append_fst (pre l : List Char) (c : Char) (h : c ∉ pre) :
    (cutByte (pre ++ l) c).1 = pre ++ (cutByte l c).1 := by
  induction pre with
  | nil => rfl
  | cons x xs ih =>
    have hx : x ≠ c := fun e => h (e ▸ List.mem_cons_self _ _)
    have hxs : c ∉ xs := fun e => h (List.mem_cons_of_mem _ e)
    rw [List.cons_append, cutByte_cons_fst _ _ _ hx, ih hxs, List.cons_append]

theorem isLower_not_upper (c : Char) (h : isLower c = true) : isUpper c = false := by
  simp only [isLower, isUpper, decide_eq_true_eq, decide_eq_false_iff_not] at h ⊢
  omega

theorem toLowerASCII_letters (l : List Char) (h : ∀ c ∈ l, isLower c = true) :
    toLowerASCII l = l := by
  induction l with
  | nil => rfl
  | cons x xs ih =>
    have hx := isLower_not_upper x (h x (List.mem_cons_self _ _))
    have := ih (fun c hc => h c (List.mem_cons_of_mem _ hc))
    unfold toLowerASCII at this ⊢
    simp [hx, this]

/-- The scheme loop reads over letters up to the colon. -/
theorem getSchemeLoop_letters (pre letters tail : List Char)
    (h : ∀ c ∈ letters, isLower c = true) (hne : pre ≠ [] ∨ letters ≠ []) :
    getSchemeLoop (pre ++ letters ++ ':' :: tail) (letters ++ ':' :: tail) pre.length =
      .ok (pre ++ letters, tail) := by
  induction letters generalizing pre with
  | nil =>
    have hp : pre ≠ [] := by
      rcases hne with h | h
      · exact h
      · exact absurd rfl h
    have hl : pre.length ≠ 0 := fun e => hp (List.length_eq_zero.mp e)
    have h1 : isLower ':' = false := by decide
    have h2 : isUpper ':' = false := by decide
    have h3 : isDigit ':' = false := by decide
    simp [getSchemeLoop, h1, h2, h3, hl]
  | cons x xs ih =>
    have hx : isLower x = true := h x (List.mem_cons_self _ _)
    have := ih (pre ++ [x]) (fun c hc => h c (List.mem_cons_of_mem _ hc)) (Or.inl (by simp))
    simp only [List.append_assoc, List.singleton_append, List.length_append, List.length_singleton]
      at this
    simp only [List.cons_append, getSchemeLoop, hx, Bool.true_or, if_true, List.append_assoc]
    exact this

theorem getScheme_letters (letters tail : List Char)
    (h : ∀ c ∈ letters, isLower c = true) (hne : letters ≠ []) :
    getScheme (letters ++ ':' :: tail) = .ok (letters, tail) := by
  have := getSchemeLoop_letters [] letters tail h (Or.inr hne)
  simpa [getScheme] using this

theorem setPath_scheme (u v : URL) (p : List Char) (h : setPath u p = .ok v) :
    v.Scheme = u.Scheme := by
  unfold setPath at h
  split at h
  · cases h
  · injection h with h
    rw [← h]

theorem parseAuthorityAndPath_scheme (u v : URL) (rest : List Char)
    (h : parseAuthorityAndPath u rest = .ok v) : v.Scheme = u.Scheme := by
  unfold parseAuthorityAndPath at h
  split at h
  · simp only at h
    split at h
    · cases h
    · have := setPath_scheme _ _ _ h
      simpa using this
  · split at h
    · have := setPath_scheme _ _ _ h
      simpa using this
    · exact setPath_scheme _ _ _ h

theorem parseAfterQuery_scheme (u v : URL) (rest : List Char)
    (h : parseAfterQuery u rest = .ok v) : v.Scheme = u.Scheme := by
  unfold parseAfterQuery at h
  split at h
  · split at h
    · injection h with h
      rw [← h]
    · split at h
      · cases h
      · exact parseAuthorityAndPath_scheme _ _ _ h
  · exact parseAuthorityAndPath_scheme _ _ _ h

theorem parseAfterScheme_scheme (scheme : String) (rest : List Char) (v : URL)
    (h : parseAfterScheme scheme rest = .ok v) : v.Scheme = scheme := by
  unfold parseAfterScheme at h
  have := parseAfterQuery_scheme _ _ _ h
  simpa using this

/-- A text that begins with letters and `://` parses, if at all, to a URL whose
scheme is these letters. -/
theorem urlParse_scheme (s : String) (letters rest : List Char) (u : URL)
    (hne : letters ≠ []) (hall : ∀ c ∈ letters, isLower c = true)
    (hs : s.data = letters ++ [':', '/', '/'] ++ rest)
    (h : urlParse s = .ok u) : u.Scheme = String.mk letters := by
  have hhash : '#' ∉ letters ++ [':', '/', '/'] := by
    intro hm
    rcases List.mem_append.mp hm with hm | hm
    · have := hall _ hm
      revert this
      decide
    · revert hm
      decide
  have hcut : (cutByte s.data '#').1 = letters ++ ':' :: ('/' :: '/' :: (cutByte rest '#').1) := by
    rw [hs, cutByte_append_fst _ _ _ hhash]
    simp
  have hstar : letters ++ ':' :: ('/' :: '/' :: (cutByte rest '#').1) ≠ ['*'] := by
    intro e
    have := congrArg List.length e
    simp at this
    omega
  have key : ∀ v, parse (cutByte s.data '#').1 = .ok v → v.Scheme = String.mk letters := by
    intro v hv
    rw [hcut] at hv
    unfold parse at hv
    split at hv
    · cases hv
    · rw [getScheme_letters letters _ hall hne] at hv
      simp only at hv
      rw [toLowerASCII_letters letters hall] at hv
      exact parseAfterScheme_scheme _ _ _ hv
  unfold urlParse at h
  simp only at h
  split at h
  · cases h
  · rename_i v hv
    split at h
    · injection h with h
      rw [← h]
      exact key v hv
    · split at h
      · cases h
      · injection h with h
        rw [← h]
        exact key v hv

theorem mk_ne_empty (l : List Char) (h : l ≠ []) : String.mk l ≠ "" := by
  intro e
  exact h (congrArg String.data e)

/-! ## Lemmas on `New` -/

theorem New_load_error (env : Env) (fs : FS) (cfg : Config) (e : GoError)
    (h : LoadX509KeyPair env fs cfg.CertificateFile cfg.KeyFile = .error e) :
    New env fs cfg = { server := none, err := some e,
                       trace := [Event.loadKeyPair cfg.CertificateFile cfg.KeyFile] } := by
  simp only [New, h]

theorem New_parse_error (env : Env) (fs : FS) (cfg : Config) (cert : Certificate) (e : GoError)
    (h : LoadX509KeyPair env fs cfg.CertificateFile cfg.KeyFile = .ok cert)
    (hp : urlParse (proxyAddr cfg) = .error e) :
    New env fs cfg = { server := none, err := some e,
                       trace := [Event.loadKeyPair cfg.CertificateFile cfg.KeyFile,
                                 Event.urlParse (proxyAddr cfg)] } := by
  simp only [New, h, hp]

/-- When the key pair loads and the address parses, the Server holds the loaded
certificate and the parsed URL as it is: its scheme is not empty. -/
theorem New_ok (env : Env) (fs : FS) (cfg : Config) (cert : Certificate) (u : URL)
    (h : LoadX509KeyPair env fs cfg.CertificateFile cfg.KeyFile = .ok cert)
    (hp : urlParse (proxyAddr cfg) = .ok u) :
    New env fs cfg =
      { server := some { Addr := ":" ++ toString cfg.ListenPort, Certificates := [cert],
                         Target := u },
        err := none,
        trace := [Event.loadKeyPair cfg.CertificateFile cfg.KeyFile,
                  Event.urlParse (proxyAddr cfg)] } := by
  obtain ⟨letters, rest, hne, hall, hs⟩ := proxyAddr_hasSchemeStart cfg
  have hsch := urlParse_scheme _ letters rest u hne hall hs hp
  have hlen : ¬ u.Scheme.length = 0 := by
    rw [hsch]
    exact length_ne_zero_of_ne_empty _ (mk_ne_empty _ hne)
  simp only [New, h, hp, hlen, if_false]

theorem New_parsedAddr (env : Env) (fs : FS) (cfg : Config) (cert : Certificate)
    (h : LoadX509KeyPair env fs cfg.CertificateFile cfg.KeyFile = .ok cert) :
    parsedAddr (New env fs cfg).trace = some (proxyAddr cfg) := by
  cases hp : urlParse (proxyAddr cfg) with
  | error e => rw [New_parse_error env fs cfg cert e h hp]; rfl
  | ok u => rw [New_ok env fs cfg cert u h hp]; rfl

theorem ReadFile_empty (fs : FS) : ReadFile fs "" = .error (.pathError "open" "") := by
  simp [ReadFile]

theorem https_data (s : String) :
    ("https://" ++ s).data = ['h', 't', 't', 'p', 's'] ++ [':', '/', '/'] ++ s.data := by
  simp only [String.data_append]
  rfl

theorem urlParse_example :
    urlParse "http://example.com:9000" =
      .ok { Scheme := "http", Opaque := "", User := none, Host := "example.com:9000",
            Path := "", ForceQuery := false, RawQuery := "", Fragment := "",
            OmitHost := false } := by
  decide

/-! ## The claims on `New` and `MkCert` -/

/-- C6, as amended.  For every Config, whatever its Domain, `New` begins by
loading the key pair from `CertificateFile` and `KeyFile`.  When loading fails
`New` returns that error and no Server, and does not get to the upstream
target; with either path unset loading always fails.  Every Server `New`
returns carries exactly one certificate, the loaded key pair. -/
theorem C6_New_always_loads_key_pair (env : Env) (fs : FS) (cfg : Config) :
    (New env fs cfg).trace.head? = some (Event.loadKeyPair cfg.CertificateFile cfg.KeyFile) ∧
    (∀ e, LoadX509KeyPair env fs cfg.CertificateFile cfg.KeyFile = .error e →
      (New env fs cfg).server = none ∧ (New env fs cfg).err = some e ∧
      parsedAddr (New env fs cfg).trace = none) ∧
    ((cfg.CertificateFile = "" ∨ cfg.KeyFile = "") →
      (New env fs cfg).server = none ∧ (New env fs cfg).err ≠ none) ∧
    (∀ srv, (New env fs cfg).server = some srv →
      ∃ cert, LoadX509KeyPair env fs cfg.CertificateFile cfg.KeyFile = .ok cert ∧
        srv.Certificates = [cert]) := by
  refine ⟨?_, ?_, ?_, ?_⟩
  · cases h : LoadX509KeyPair env fs cfg.CertificateFile cfg.KeyFile with
    | error e => rw [New_load_error env fs cfg e h]; rfl
    | ok cert =>
      cases hp : urlParse (proxyAddr cfg) with
      | error e => rw [New_parse_error env fs cfg cert e h hp]; rfl
      | ok u => rw [New_ok env fs cfg cert u h hp]; rfl
  · intro e h
    rw [New_load_error env fs cfg e h]
    exact ⟨rfl, rfl, rfl⟩
  · intro hunset
    have : ∃ e, LoadX509KeyPair env fs cfg.CertificateFile cfg.KeyFile = .error e := by
      rcases hunset with hc | hk
      · exact ⟨.pathError "open" "", by simp [LoadX509KeyPair, hc, ReadFile_empty]⟩
      · cases hr : ReadFile fs cfg.CertificateFile with
        | error e => exact ⟨e, by simp [LoadX509KeyPair, hr]⟩
        | ok c => exact ⟨.pathError "open" "", by simp [LoadX509KeyPair, hr, hk, ReadFile_empty]⟩
    obtain ⟨e, he⟩ := this
    rw [New_load_error env fs cfg e he]
    exact ⟨rfl, by simp⟩
  · intro srv hsrv
    cases h : LoadX509KeyPair env fs cfg.CertificateFile cfg.KeyFile with
    | error e =>
      rw [New_load_error env fs cfg e h] at hsrv
      cases hsrv
    | ok cert =>
      refine ⟨cert, rfl, ?_⟩
      cases hp : urlParse (proxyAddr cfg) with
      | error e =>
        rw [New_parse_error env fs cfg cert e h hp] at hsrv
        cases hsrv
      | ok u =>
        rw [New_ok env fs cfg cert u h hp] at hsrv
        injection hsrv with hsrv
        rw [← hsrv]

/-- C7. When the key pair loads, the text `New` hands to `url.Parse` is
`ProxyAddr` itself if `ProxyAddr` begins with one or more lowercase letters
followed by `://`, and `http://` followed by `ProxyAddr` otherwise.  For
`ProxyAddr = "example.com:9000"` the Server's target has scheme `http` and
host `example.com:9000`; for `ProxyAddr = "https://" ++ rest` the text parsed is
`ProxyAddr` itself and the target of every Server returned has scheme `https`. -/
theorem C7_upstream_target (env : Env) (fs : FS) (cfg : Config) (cert : Certificate)
    (hload : LoadX509KeyPair env fs cfg.CertificateFile cfg.KeyFile = .ok cert) :
    (HasSchemeStart cfg.ProxyAddr →
      parsedAddr (New env fs cfg).trace = some cfg.ProxyAddr) ∧
    (¬ HasSchemeStart cfg.ProxyAddr →
      parsedAddr (New env fs cfg).trace = some ("http://" ++ cfg.ProxyAddr)) ∧
    (cfg.ProxyAddr = "example.com:9000" →
      ∃ srv, (New env fs cfg).server = some srv ∧ srv.Target.Scheme = "http" ∧
        srv.Target.Host = "example.com:9000") ∧
    (∀ rest, cfg.ProxyAddr = "https://" ++ rest →
      parsedAddr (New env fs cfg).trace = some cfg.ProxyAddr ∧
      ∀ srv, (New env fs cfg).server = some srv → srv.Target.Scheme = "https") := by
  have hpa := New_parsedAddr env fs cfg cert hload
  have hyes : HasSchemeStart cfg.ProxyAddr → proxyAddr cfg = cfg.ProxyAddr := by
    intro h
    simp [proxyAddr, (reSchemeMatch_iff _).mpr h]
  have hno : ¬ HasSchemeStart cfg.ProxyAddr → proxyAddr cfg = "http://" ++ cfg.ProxyAddr := by
    intro h
    have : reSchemeMatch cfg.ProxyAddr = false := by
      cases hm : reSchemeMatch cfg.ProxyAddr with
      | false => rfl
      | true => exact absurd ((reSchemeMatch_iff _).mp hm) h
    simp [proxyAddr, this]
  refine ⟨?_, ?_, ?_, ?_⟩
  · intro h
    rw [hpa, hyes h]
  · intro h
    rw [hpa, hno h]
  · intro hex
    have hp : proxyAddr cfg = "http://example.com:9000" := by
      unfold proxyAddr
      rw [hex]
      decide
    have hu := urlParse_example
    rw [← hp] at hu
    rw [New_ok env fs cfg cert _ hload hu]
    exact ⟨_, rfl, rfl, rfl⟩
  · intro rest hrest
    have hss : HasSchemeStart cfg.ProxyAddr := by
      rw [hrest]
      exact ⟨['h', 't', 't', 'p', 's'], rest.data, by simp, by decide, https_data rest⟩
    refine ⟨by rw [hpa, hyes hss], ?_⟩
    intro srv hsrv
    cases hp : urlParse (proxyAddr cfg) with
    | error e =>
      rw [New_parse_error env fs cfg cert e hload hp] at hsrv
      cases hsrv
    | ok u =>
      rw [New_ok env fs cfg cert u hload hp] at hsrv
      injection hsrv with hsrv
      rw [← hsrv]
      rw [hyes hss, hrest] at hp
      have := urlParse_scheme ("https://" ++ rest) ['h', 't', 't', 'p', 's'] rest.data u
        (by simp) (by decide) (https_data rest) hp
      simpa using this

/-- C10. For every `ProxyAddr`, the text `New` hands to `url.Parse` begins with
one or more lowercase letters followed by `://`; prefixing it again changes
nothing; whenever it parses, the scheme of the result is not empty; and the
target of every Server `New` returns is the parsed URL itself, so the branch
that sets an empty scheme to `http` is never taken. -/
theorem C10_scheme_never_empty (cfg : Config) :
    HasSchemeStart (proxyAddr cfg) ∧
    proxyAddr { cfg with ProxyAddr := proxyAddr cfg } = proxyAddr cfg ∧
    (∀ u, urlParse (proxyAddr cfg) = .ok u → u.Scheme ≠ "") ∧
    (∀ env fs srv, (New env fs cfg).server = some srv →
      urlParse (proxyAddr cfg) = .ok srv.Target ∧
      parsedAddr (New env fs cfg).trace = some (proxyAddr cfg)) := by
  refine ⟨proxyAddr_hasSchemeStart cfg, ?_, ?_, ?_⟩
  · have := (reSchemeMatch_iff _).mpr (proxyAddr_hasSchemeStart cfg)
    show (if !reSchemeMatch (proxyAddr cfg) then "http://" ++ proxyAddr cfg else proxyAddr cfg) =
      proxyAddr cfg
    simp [this]
  · intro u hu
    obtain ⟨letters, rest, hne, hall, hs⟩ := proxyAddr_hasSchemeStart cfg
    rw [urlParse_scheme _ letters rest u hne hall hs hu]
    exact mk_ne_empty _ hne
  · intro env fs srv hsrv
    cases h : LoadX509KeyPair env fs cfg.CertificateFile cfg.KeyFile with
    | error e =>
      rw [New_load_error env fs cfg e h] at hsrv
      cases hsrv
    | ok cert =>
      cases hp : urlParse (proxyAddr cfg) with
      | error e =>
        rw [New_parse_error env fs cfg cert e h hp] at hsrv
        cases hsrv
      | ok u =>
        rw [New_ok env fs cfg cert u h hp] at hsrv ⊢
        injection hsrv with hsrv
        rw [← hsrv]
        exact ⟨rfl, rfl⟩

/-- C9, as amended.  When the run of the certificate tool fails, the error
`MkCert` returns is the subprocess error itself, which tells the exit status;
the captured output is neither part of it nor logged.  So two failing runs
with the same subprocess error yield the same error, whatever they printed. -/
theorem C9_error_is_the_subprocess_error (env : Env) (cfg : Settings) (fs : FS)
    (e : ExecError) (hfail : (env.run (mkcertArgs cfg) fs).err = some e) :
    (MkCert env cfg fs).err = some (.execFailed e) ∧
    (MkCert env cfg fs).logs = ["$ " ++ " ".intercalate (mkcertArgs cfg)] ∧
    (∀ env2 : Env, (env2.run (mkcertArgs cfg) fs).err = some e →
      (MkCert env2 cfg fs).err = (MkCert env cfg fs).err) := by
  have h1 : ∀ en : Env, (en.run (mkcertArgs cfg) fs).err = some e →
      (MkCert en cfg fs).err = some (.execFailed e) ∧
      (MkCert en cfg fs).logs = ["$ " ++ " ".intercalate (mkcertArgs cfg)] := by
    intro en hen
    unfold MkCert
    simp [hen]
  refine ⟨(h1 env hfail).1, (h1 env hfail).2, ?_⟩
  intro env2 h2
  rw [(h1 env2 h2).1, (h1 env hfail).1]

/-! ## The claims on `SetHostAndListenAddr`, continued -/

/-- C8, as amended.  Take a listen string with a non-empty host and a port that
parses, and run the call twice in succession on the same Config.  Unless the
first call stopped at a certificate path that is a directory, the second call
finds `CertificateFile` and `KeyFile` set: it stats no path, does not invoke
the provisioner and returns no error, whether or not the first call invoked
the provisioner.  So the two calls decide alike exactly when the first did not
invoke it. -/
theorem C8_second_call_checks_nothing (env : Env) (fs : FS) (cfg : Config)
    (certdir listen host port : String) (num : Int)
    (hsplit : SplitHostPort listen = .ok (host, port)) (hhost : host ≠ "")
    (hport : Atoi port = .ok num)
    (hfirst : (SetHostAndListenAddr env fs (some cfg) certdir listen).err ≠
      some (.certIsDir (certPath certdir host))) :
    provisionerCalls (SetHostAndListenAddr env
        (SetHostAndListenAddr env fs (some cfg) certdir listen).fs
        (SetHostAndListenAddr env fs (some cfg) certdir listen).cfg certdir listen).trace = 0 ∧
    statPaths (SetHostAndListenAddr env
        (SetHostAndListenAddr env fs (some cfg) certdir listen).fs
        (SetHostAndListenAddr env fs (some cfg) certdir listen).cfg certdir listen).trace = [] ∧
    (SetHostAndListenAddr env
        (SetHostAndListenAddr env fs (some cfg) certdir listen).fs
        (SetHostAndListenAddr env fs (some cfg) certdir listen).cfg certdir listen).err = none ∧
    (provisionerCalls (SetHostAndListenAddr env
        (SetHostAndListenAddr env fs (some cfg) certdir listen).fs
        (SetHostAndListenAddr env fs (some cfg) certdir listen).cfg certdir listen).trace =
      provisionerCalls (SetHostAndListenAddr env fs (some cfg) certdir listen).trace ↔
     provisionerCalls (SetHostAndListenAddr env fs (some cfg) certdir listen).trace = 0) := by
  rw [setHost_reaches_certStep env fs cfg certdir listen host port num hsplit hhost hport]
    at hfirst ⊢
  unfold certPath at hfirst
  obtain ⟨c1, hc1, hcf, hkf, _⟩ :=
    certStep_sets_paths env fs { cfg with ListenPort := num, Domain := host } certdir host hfirst
  rw [hc1]
  rw [setHost_reaches_certStep env _ c1 certdir listen host port num hsplit hhost hport]
  have hsecond : ∀ fs2 : FS,
      certStep env fs2 { c1 with ListenPort := num, Domain := host } certdir host =
        { cfg := some { c1 with ListenPort := num, Domain := host }, fs := fs2, err := none,
          trace := [] } := by
    intro fs2
    simp [certStep, keyStep, provisionStep, length_eq_zero_iff, hcf, hkf]
  rw [hsecond]
  refine ⟨rfl, rfl, rfl, ?_⟩
  constructor
  · intro h
    exact h.symm
  · intro h
    rw [h]
    rfl

/-! ## Concrete runs -/

theorem not_isDirectory_of_stat_error (fs : FS) (p : String) (e : GoError)
    (h : Stat fs p = .error e) : ¬ IsDirectory fs p := by
  rintro ⟨info, hi, _⟩
  rw [h] at hi
  cases hi

theorem not_isDirectory_of_stat_ok (fs : FS) (p : String) (info : FileInfo)
    (h : Stat fs p = .ok info) (hd : info.IsDir = false) : ¬ IsDirectory fs p := by
  rintro ⟨info2, hi, hd2⟩
  rw [h] at hi
  injection hi with hi
  rw [← hi, hd] at hd2
  cases hd2

/-- C1 at `myhost:8443`: on the empty filesystem the provisioner runs once; with
both files in place it does not run and no error is returned. -/
theorem C1_provisioning_decision_witness :
    provisionerCalls
      (SetHostAndListenAddr quietEnv emptyFS (some zeroConfig) "certs" "myhost:8443").trace = 1 ∧
    provisionerCalls
      (SetHostAndListenAddr quietEnv certsFS (some zeroConfig) "certs" "myhost:8443").trace = 0 ∧
    (SetHostAndListenAddr quietEnv certsFS (some zeroConfig) "certs" "myhost:8443").err = none :=
  ⟨((C1_provisioning_decision quietEnv emptyFS zeroConfig "certs" "myhost:8443" "myhost" "8443"
      8443 (by decide) (by decide) (by decide) rfl rfl
      (not_isDirectory_of_stat_error _ _ (.pathError "stat" "certs/myhost.pem") (by decide))
      (not_isDirectory_of_stat_error _ _ (.pathError "stat" "certs/myhost-key.pem")
        (by decide))).1
      (Or.inl ⟨.pathError "stat" "certs/myhost.pem", by decide⟩)).1,
   ((C1_provisioning_decision quietEnv certsFS zeroConfig "certs" "myhost:8443" "myhost" "8443"
      8443 (by decide) (by decide) (by decide) rfl rfl
      (not_isDirectory_of_stat_ok _ _ { mode := .regular } (by decide) (by decide))
      (not_isDirectory_of_stat_ok _ _ { mode := .regular } (by decide) (by decide))).2
      ⟨by unfold IsRegularFile; decide, by unfold IsRegularFile; decide⟩).1,
   ((C1_provisioning_decision quietEnv certsFS zeroConfig "certs" "myhost:8443" "myhost" "8443"
      8443 (by decide) (by decide) (by decide) rfl rfl
      (not_isDirectory_of_stat_ok _ _ { mode := .regular } (by decide) (by decide))
      (not_isDirectory_of_stat_ok _ _ { mode := .regular } (by decide) (by decide))).2
      ⟨by unfold IsRegularFile; decide, by unfold IsRegularFile; decide⟩).2.1⟩

/-- C2 fails as stated.  The call returns without error while a path of the
Config names no regular file: with caller-supplied paths that do not exist;
with an empty host, where both paths stay unset; after a provisioner that
reports success and writes nothing; and with computed paths that are sockets. -/
theorem C2_counterexample :
    ((SetHostAndListenAddr quietEnv emptyFS (some suppliedConfig) "certs" "myhost:8443").err = none ∧
     (SetHostAndListenAddr quietEnv emptyFS (some suppliedConfig) "certs"
        "myhost:8443").cfg.map (·.CertificateFile) = some "cert.pem" ∧
     Stat (SetHostAndListenAddr quietEnv emptyFS (some suppliedConfig) "certs" "myhost:8443").fs
        "cert.pem" = .error (.pathError "stat" "cert.pem")) ∧
    ((SetHostAndListenAddr quietEnv certsFS (some zeroConfig) "certs" ":8080").err = none ∧
     (SetHostAndListenAddr quietEnv certsFS (some zeroConfig) "certs"
        ":8080").cfg.map (·.CertificateFile) = some "" ∧
     Stat (SetHostAndListenAddr quietEnv certsFS (some zeroConfig) "certs" ":8080").fs
        "" = .error (.pathError "stat" "")) ∧
    ((SetHostAndListenAddr quietEnv emptyFS (some zeroConfig) "certs" "myhost:8443").err = none ∧
     (SetHostAndListenAddr quietEnv emptyFS (some zeroConfig) "certs"
        "myhost:8443").cfg.map (·.CertificateFile) = some "certs/myhost.pem" ∧
     Stat (SetHostAndListenAddr quietEnv emptyFS (some zeroConfig) "certs" "myhost:8443").fs
        "certs/myhost.pem" = .error (.pathError "stat" "certs/myhost.pem")) ∧
    ((SetHostAndListenAddr quietEnv socketFS (some zeroConfig) "certs" "myhost:8443").err = none ∧
     (SetHostAndListenAddr quietEnv socketFS (some zeroConfig) "certs"
        "myhost:8443").cfg.map (·.CertificateFile) = some "certs/myhost.pem" ∧
     Stat (SetHostAndListenAddr quietEnv socketFS (some zeroConfig) "certs" "myhost:8443").fs
        "certs/myhost.pem" = .ok { mode := .other }) := by
  decide

/-- C2 as amended, at `myhost:8443` with both files in place. -/
theorem C2_computed_paths_exist_witness :
    (SetHostAndListenAddr quietEnv certsFS (some zeroConfig) "certs"
        "myhost:8443").cfg.map (·.CertificateFile) = some (certPath "certs" "myhost") ∧
    ∃ info, Stat certsFS (certPath "certs" "myhost") = .ok info ∧ info.IsDir = false :=
  (C2_computed_paths_exist quietEnv certsFS zeroConfig "certs" "myhost:8443" "myhost" "8443"
    8443 (by decide) (by decide) (by decide) (by decide) (by decide)).2.1 rfl

/-- C3 at `myhost:8443`, and at a listen string without a colon. -/
theorem C3_listen_address_witness :
    ((SetHostAndListenAddr quietEnv certsFS (some zeroConfig) "certs"
        "myhost:8443").cfg.map (·.ListenPort) = some 8443 ∧
     (SetHostAndListenAddr quietEnv certsFS (some zeroConfig) "certs"
        "myhost:8443").cfg.map (·.Domain) = some "myhost") ∧
    (SetHostAndListenAddr quietEnv certsFS (some zeroConfig) "certs" "myhost").err ≠ none ∧
    (SetHostAndListenAddr quietEnv certsFS (some zeroConfig) "certs" "myhost:https").err ≠ none :=
  ⟨⟨((C3_listen_address quietEnv certsFS zeroConfig "certs" "myhost:8443").1
        "myhost" "8443" 8443 (by decide) (by decide)).2.1,
    ((C3_listen_address quietEnv certsFS zeroConfig "certs" "myhost:8443").1
        "myhost" "8443" 8443 (by decide) (by decide)).2.2 (by decide)⟩,
   (C3_listen_address quietEnv certsFS zeroConfig "certs" "myhost").2.1 (by decide),
   (C3_listen_address quietEnv certsFS zeroConfig "certs" "myhost:https").2.2
      "myhost" "https" (by decide) (by decide)⟩

/-- C4 at `myhost:8443`, where `certs/myhost.pem` is a directory. -/
theorem C4_directory_is_fatal_witness :
    ((SetHostAndListenAddr quietEnv dirFS (some zeroConfig) "certs" "myhost:8443").err =
        some (.certIsDir (certPath "certs" "myhost")) ∨
     (SetHostAndListenAddr quietEnv dirFS (some zeroConfig) "certs" "myhost:8443").err =
        some (.keyIsDir (keyPath "certs" "myhost"))) ∧
    provisionerCalls
      (SetHostAndListenAddr quietEnv dirFS (some zeroConfig) "certs" "myhost:8443").trace = 0 :=
  C4_directory_is_fatal quietEnv dirFS zeroConfig "certs" "myhost:8443" "myhost" "8443" 8443
    (by decide) (by decide) (by decide)
    (Or.inl ⟨rfl, { mode := .directory }, by decide, by decide⟩)

/-- C5 at `:8080`. -/
theorem C5_empty_host_witness :
    (SetHostAndListenAddr quietEnv certsFS (some zeroConfig) "certs" (":" ++ "8080")).err = none ∧
    (SetHostAndListenAddr quietEnv certsFS (some zeroConfig) "certs" (":" ++ "8080")).cfg =
      some { zeroConfig with ListenPort := 8080 } ∧
    (SetHostAndListenAddr quietEnv certsFS (some zeroConfig) "certs" (":" ++ "8080")).trace = [] ∧
    (SetHostAndListenAddr quietEnv certsFS (some zeroConfig) "certs" (":" ++ "8080")).fs = certsFS :=
  C5_empty_host quietEnv certsFS zeroConfig "certs" "8080" 8080 (by decide)

/-- C6 fails as stated.  The Config that `SetHostAndListenAddr` leaves for the
listen string `:8080` has an empty Domain and unset paths; its proxy target
parses; yet `New` fails, on loading the key pair, and returns no Server. -/
theorem C6_counterexample :
    (SetHostAndListenAddr quietEnv emptyFS (some proxyConfig) "certs"
        ":8080").cfg.map (·.toSettings) = some hostlessConfig.toSettings ∧
    (SetHostAndListenAddr quietEnv emptyFS (some proxyConfig) "certs" ":8080").err = none ∧
    hostlessConfig.Domain = "" ∧
    urlParse (proxyAddr hostlessConfig) = .ok exampleTarget ∧
    (New quietEnv emptyFS hostlessConfig).server = none ∧
    (New quietEnv emptyFS hostlessConfig).err = some (.pathError "open" "") ∧
    (New quietEnv emptyFS hostlessConfig).trace = [Event.loadKeyPair "" ""] := by
  decide

/-- C6 as amended, at the Config left by `:8080` and at a Config for `myhost`. -/
theorem C6_New_always_loads_key_pair_witness :
    ((New quietEnv emptyFS hostlessConfig).server = none ∧
     (New quietEnv emptyFS hostlessConfig).err ≠ none) ∧
    ∃ cert, LoadX509KeyPair quietEnv certsFS "certs/myhost.pem" "certs/myhost-key.pem" = .ok cert ∧
      [({ certPEM := "CERT", keyPEM := "KEY" } : Certificate)] = [cert] :=
  ⟨(C6_New_always_loads_key_pair quietEnv emptyFS hostlessConfig).2.2.1 (Or.inl rfl),
   (C6_New_always_loads_key_pair quietEnv certsFS (myhostConfig "example.com:9000")).2.2.2
     { Addr := ":8443", Certificates := [{ certPEM := "CERT", keyPEM := "KEY" }],
       Target := exampleTarget } (by decide)⟩

/-- C7 at `ProxyAddr = "example.com:9000"`. -/
theorem C7_upstream_target_witness :
    ∃ srv, (New quietEnv certsFS (myhostConfig "example.com:9000")).server = some srv ∧
      srv.Target.Scheme = "http" ∧ srv.Target.Host = "example.com:9000" :=
  (C7_upstream_target quietEnv certsFS (myhostConfig "example.com:9000")
    { certPEM := "CERT", keyPEM := "KEY" } (by decide)).2.2.1 rfl

/-- C8 fails as stated.  On the empty filesystem, with a certificate tool that
writes nothing, the first call invokes the provisioner once and leaves the
filesystem empty; the second call on the same Config does not invoke it. -/
theorem C8_counterexample :
    provisionerCalls
      (SetHostAndListenAddr quietEnv emptyFS (some zeroConfig) "certs" "myhost:8443").trace = 1 ∧
    (SetHostAndListenAddr quietEnv emptyFS (some zeroConfig) "certs" "myhost:8443").fs = emptyFS ∧
    provisionerCalls
      (SetHostAndListenAddr quietEnv
        (SetHostAndListenAddr quietEnv emptyFS (some zeroConfig) "certs" "myhost:8443").fs
        (SetHostAndListenAddr quietEnv emptyFS (some zeroConfig) "certs" "myhost:8443").cfg
        "certs" "myhost:8443").trace = 0 :=
  ⟨by decide, rfl, by decide⟩

/-- C8 as amended, at `myhost:8443` on the empty filesystem. -/
theorem C8_second_call_checks_nothing_witness :
    provisionerCalls
      (SetHostAndListenAddr quietEnv
        (SetHostAndListenAddr quietEnv emptyFS (some zeroConfig) "certs" "myhost:8443").fs
        (SetHostAndListenAddr quietEnv emptyFS (some zeroConfig) "certs" "myhost:8443").cfg
        "certs" "myhost:8443").trace = 0 ∧
    statPaths
      (SetHostAndListenAddr quietEnv
        (SetHostAndListenAddr quietEnv emptyFS (some zeroConfig) "certs" "myhost:8443").fs
        (SetHostAndListenAddr quietEnv emptyFS (some zeroConfig) "certs" "myhost:8443").cfg
        "certs" "myhost:8443").trace = [] :=
  ⟨(C8_second_call_checks_nothing quietEnv emptyFS zeroConfig "certs" "myhost:8443" "myhost"
      "8443" 8443 (by decide) (by decide) (by decide) (by decide)).1,
   (C8_second_call_checks_nothing quietEnv emptyFS zeroConfig "certs" "myhost:8443" "myhost"
      "8443" 8443 (by decide) (by decide) (by decide) (by decide)).2.1⟩

/-- C9 fails as stated.  Two failing runs with exit status 1 that print
different output make `MkCert` return the same error. -/
theorem C9_counterexample :
    ((failingEnv 1 "output A").run (mkcertArgs zeroConfig.toSettings) emptyFS).out ≠
      ((failingEnv 1 "output B").run (mkcertArgs zeroConfig.toSettings) emptyFS).out ∧
    ((failingEnv 1 "output A").run (mkcertArgs zeroConfig.toSettings) emptyFS).err =
      ((failingEnv 1 "output B").run (mkcertArgs zeroConfig.toSettings) emptyFS).err ∧
    (MkCert (failingEnv 1 "output A") zeroConfig.toSettings emptyFS).err =
      (MkCert (failingEnv 1 "output B") zeroConfig.toSettings emptyFS).err ∧
    (MkCert (failingEnv 1 "output A") zeroConfig.toSettings emptyFS).err =
      some (.execFailed (.exitError 1)) := by
  decide

/-- C9 as amended, at a run that exits with status 1. -/
theorem C9_error_is_the_subprocess_error_witness :
    (MkCert (failingEnv 1 "output A") zeroConfig.toSettings emptyFS).err =
      some (.execFailed (.exitError 1)) :=
  (C9_error_is_the_subprocess_error (failingEnv 1 "output A") zeroConfig.toSettings emptyFS
    (.exitError 1) rfl).1

/-- C10 at `ProxyAddr = "example.com:9000"`. -/
theorem C10_scheme_never_empty_witness :
    urlParse (proxyAddr (myhostConfig "example.com:9000")) = .ok exampleTarget ∧
    parsedAddr (New quietEnv certsFS (myhostConfig "example.com:9000")).trace =
      some (proxyAddr (myhostConfig "example.com:9000")) :=
  (C10_scheme_never_empty (myhostConfig "example.com:9000")).2.2.2 quietEnv certsFS
    { Addr := ":8443", Certificates := [{ certPEM := "CERT", keyPEM := "KEY" }],
      Target := exampleTarget } (by decide)
end Mkcertproxy
